import Mathlib

/-!
Shallow embedding of the rusty-chip-8-emu virtual machine
(src/vm/vm.rs, src/vm/display.rs, src/vm/timer.rs, src/vm/debugger.rs,
src/runner.rs, with the numeric constants taken from src/vm.rs which
defines them in-repo).

Conventions of the embedding:
* Rust machine integers (u8, u16, u128, usize) are modelled as `Nat`;
  wrapping arithmetic is made explicit with `% 256` / `% 65536`.
  `u128::saturating_sub` is Nat subtraction (truncated at zero).
* Fixed-size arrays (`[u8; 4096]`, registers, the screen) are `List Nat`
  together with length hypotheses in the theorems.
* An array/slice access that can panic in Rust is a checked access
  returning `Option`; a panic is `none`.
* `Result<T, String>` is `Except String T`.
* Logging (`warn!`, `trace!`, `println!`) has no state effect and is not
  modelled.
-/

namespace Chip8

/-! ### Constants (src/vm.rs lines 26-39) -/

def VM_ORIGINAL_HZ : Nat := 60

def VM_INTERPRETER_SIZE : Nat := 512
def VM_DISPLAY_REFRESH_SIZE : Nat := 256
def VM_INTERNAL_SIZE : Nat := 96

def VM_RESERVED_BEGIN : Nat := VM_INTERPRETER_SIZE
def VM_RESERVED_END : Nat := VM_DISPLAY_REFRESH_SIZE + VM_INTERNAL_SIZE

def MEMORY_SIZE : Nat := 1024 * 4
def ROM_SIZE : Nat := MEMORY_SIZE - VM_RESERVED_BEGIN - VM_RESERVED_END
def REGISTER_COUNT : Nat := 16

def PC_INCREMENT : Nat := 2
def PC_START : Nat := 512

/-- Modelled from the spec: src/vm/constants.rs is not part of the given
sources.  The spec fixes a monochrome width x height framebuffer of the
classic console; the classic dimensions are 64 x 32. -/
def SCREEN_SIZE_X : Nat := 64

/-- Modelled from the spec: see `SCREEN_SIZE_X`. -/
def SCREEN_SIZE_Y : Nat := 32

/-- Modelled from the spec: see `SCREEN_SIZE_X`. -/
def SCREEN_SIZE : Nat := SCREEN_SIZE_X * SCREEN_SIZE_Y

/-- Modelled from the spec: src/vm/constants.rs is not part of the given
sources.  One font glyph occupies 5 bytes (classic console font). -/
def FONT_SYMBOL_SIZE : Nat := 5

/-- Modelled from the spec: src/vm/constants.rs is not part of the given
sources.  The per-tick nanosecond constant matching 60 Hz semantics
used by `Timer::get_scaled` / `Timer::set_scaled`. -/
def TIMER_DURATION_NANO : Nat := 1000000000 / 60

/-! ### The instruction set (src/vm/opcodes.rs) -/

inductive OpCode where
  | Unknown
  | Raw_Call                (nnn : Nat)
  | Disp_Clear
  | Disp                    (x y : Nat) (n : Nat)
  | Flow_Return
  | Flow_Jump               (nnn : Nat)
  | Flow_Call               (nnn : Nat)
  | Flow_Jump_Offset        (nnn : Nat)
  | Cond_Eq_Const           (x : Nat) (nn : Nat)
  | Cond_Neq_Const          (x : Nat) (nn : Nat)
  | Cond_Eq_Reg             (x y : Nat)
  | Cond_Neq_Reg            (x y : Nat)
  | Const_Set_Reg           (x : Nat) (nn : Nat)
  | Const_Add_Reg           (x : Nat) (nn : Nat)
  | Assign                  (x y : Nat)
  | BitOp_Or                (x y : Nat)
  | BitOp_And               (x y : Nat)
  | BitOp_Xor               (x y : Nat)
  | BitOp_Shift_Right       (x y : Nat)
  | BitOp_Shift_Left        (x y : Nat)
  | Math_Add                (x y : Nat)
  | Math_Minus              (x y : Nat)
  | Math_Minus_Reverse      (x y : Nat)
  | MEM_Set_I               (nnn : Nat)
  | MEM_Add_I               (x : Nat)
  | MEM_Set_Sprite_I        (x : Nat)
  | MEM_Reg_Dump            (x : Nat)
  | MEM_Reg_Load            (x : Nat)
  | Rand                    (x : Nat) (nn : Nat)
  | BCD                     (x : Nat)
  | Timer_Delay_Get         (x : Nat)
  | Timer_Delay_Set         (x : Nat)
  | Sound_Set               (x : Nat)
  | KeyOp_Skip_Pressed      (x : Nat)
  | KeyOp_Skip_Not_Pressed  (x : Nat)
  | KeyOp_Await             (x : Nat)
deriving DecidableEq, Repr

/-! ### The decoder (src/vm/vm.rs, `Vm::decode`, lines 294-400) -/

def decode (code : Nat) : OpCode :=
  let nibble_1 := 0xF000
  let nibble_2 := 0xF00
  let nibble_3 := 0x0F0
  let nibble_4 := 0x00F
  let op_bitmask  := nibble_1
  let x_bitmask   := nibble_2
  let y_bitmask   := nibble_3
  let n_bitmask   := nibble_4
  let nn_bitmask  := nibble_3 ||| nibble_4
  let nnn_bitmask := nibble_2 ||| nibble_3 ||| nibble_4
  let op  := (code &&& op_bitmask) >>> (3 * 4)
  let x   := (code &&& x_bitmask) >>> (2 * 4)
  let y   := (code &&& y_bitmask) >>> (1 * 4)
  let n   := code &&& n_bitmask
  let nn  := code &&& nn_bitmask
  let nnn := code &&& nnn_bitmask
  match op with
  | 0x0 =>
    match nnn with
    | 0x0E0 => OpCode.Disp_Clear
    | 0x0EE => OpCode.Flow_Return
    | _     => OpCode.Raw_Call nnn
  | 0x1 => OpCode.Flow_Jump nnn
  | 0x2 => OpCode.Flow_Call nnn
  | 0x3 => OpCode.Cond_Eq_Const x nn
  | 0x4 => OpCode.Cond_Neq_Const x nn
  | 0x5 => OpCode.Cond_Eq_Reg x y
  | 0x6 => OpCode.Const_Set_Reg x nn
  | 0x7 => OpCode.Const_Add_Reg x nn
  | 0x8 =>
    match code &&& nibble_4 with
    | 0x0 => OpCode.Assign x y
    | 0x1 => OpCode.BitOp_Or x y
    | 0x2 => OpCode.BitOp_And x y
    | 0x3 => OpCode.BitOp_Xor x y
    | 0x4 => OpCode.Math_Add x y
    | 0x5 => OpCode.Math_Minus x y
    | 0x6 => OpCode.BitOp_Shift_Right x y
    | 0x7 => OpCode.Math_Minus_Reverse x y
    | 0xE => OpCode.BitOp_Shift_Left x y
    | _   => OpCode.Unknown
  | 0x9 => OpCode.Cond_Neq_Reg x y
  | 0xA => OpCode.MEM_Set_I nnn
  | 0xB => OpCode.Flow_Jump_Offset nnn
  | 0xC => OpCode.Rand x nn
  | 0xD => OpCode.Disp x y n
  | 0xE =>
    match code &&& (nibble_3 ||| nibble_4) with
    | 0x9E => OpCode.KeyOp_Skip_Pressed x
    | 0xA1 => OpCode.KeyOp_Skip_Not_Pressed x
    | _    => OpCode.Unknown
  | 0xF =>
    match code &&& (nibble_3 ||| nibble_4) with
    | 0x07 => OpCode.Timer_Delay_Get x
    | 0x0A => OpCode.KeyOp_Await x
    | 0x15 => OpCode.Timer_Delay_Set x
    | 0x18 => OpCode.Sound_Set x
    | 0x1E => OpCode.MEM_Add_I x
    | 0x29 => OpCode.MEM_Set_Sprite_I x
    | 0x33 => OpCode.BCD x
    | 0x55 => OpCode.MEM_Reg_Dump x
    | 0x65 => OpCode.MEM_Reg_Load x
    | _    => OpCode.Unknown
  | _ => OpCode.Unknown

/-- Specification-side decoder, written from the spec's documented bit
layout: op = bits 12-15, x = bits 8-11, y = bits 4-7, n = bits 0-3,
nn = low byte, nnn = low 12 bits, with the documented op table.  It is
compared with `decode` (the embedding of the source) in the C2
theorem. -/
def decodeSpec (code : Nat) : OpCode :=
  let op  := code / 4096 % 16
  let x   := code / 256 % 16
  let y   := code / 16 % 16
  let n   := code % 16
  let nn  := code % 256
  let nnn := code % 4096
  match op with
  | 0x0 =>
    match nnn with
    | 0x0E0 => OpCode.Disp_Clear
    | 0x0EE => OpCode.Flow_Return
    | _     => OpCode.Raw_Call nnn
  | 0x1 => OpCode.Flow_Jump nnn
  | 0x2 => OpCode.Flow_Call nnn
  | 0x3 => OpCode.Cond_Eq_Const x nn
  | 0x4 => OpCode.Cond_Neq_Const x nn
  | 0x5 => OpCode.Cond_Eq_Reg x y
  | 0x6 => OpCode.Const_Set_Reg x nn
  | 0x7 => OpCode.Const_Add_Reg x nn
  | 0x8 =>
    match n with
    | 0x0 => OpCode.Assign x y
    | 0x1 => OpCode.BitOp_Or x y
    | 0x2 => OpCode.BitOp_And x y
    | 0x3 => OpCode.BitOp_Xor x y
    | 0x4 => OpCode.Math_Add x y
    | 0x5 => OpCode.Math_Minus x y
    | 0x6 => OpCode.BitOp_Shift_Right x y
    | 0x7 => OpCode.Math_Minus_Reverse x y
    | 0xE => OpCode.BitOp_Shift_Left x y
    | _   => OpCode.Unknown
  | 0x9 => OpCode.Cond_Neq_Reg x y
  | 0xA => OpCode.MEM_Set_I nnn
  | 0xB => OpCode.Flow_Jump_Offset nnn
  | 0xC => OpCode.Rand x nn
  | 0xD => OpCode.Disp x y n
  | 0xE =>
    match nn with
    | 0x9E => OpCode.KeyOp_Skip_Pressed x
    | 0xA1 => OpCode.KeyOp_Skip_Not_Pressed x
    | _    => OpCode.Unknown
  | 0xF =>
    match nn with
    | 0x07 => OpCode.Timer_Delay_Get x
    | 0x0A => OpCode.KeyOp_Await x
    | 0x15 => OpCode.Timer_Delay_Set x
    | 0x18 => OpCode.Sound_Set x
    | 0x1E => OpCode.MEM_Add_I x
    | 0x29 => OpCode.MEM_Set_Sprite_I x
    | 0x33 => OpCode.BCD x
    | 0x55 => OpCode.MEM_Reg_Dump x
    | 0x65 => OpCode.MEM_Reg_Load x
    | _    => OpCode.Unknown
  | _ => OpCode.Unknown

/-! ### The machine frame (src/vm/vm.rs, `VmFrame`; the two timers store
raw nanoseconds, src/vm/timer.rs `Timer(u128)`) -/

structure VmFrame where
  registers   : List Nat
  stack       : List Nat
  memory      : List Nat
  PC          : Nat
  I           : Nat
  delay_timer : Nat
  sound_timer : Nat
  screen      : List Nat
deriving DecidableEq, Repr

/-- `VmFrame::new` (src/vm/vm.rs lines 46-61). -/
def VmFrame.new : VmFrame :=
  { registers := List.replicate REGISTER_COUNT 0
    stack := []
    memory := List.replicate MEMORY_SIZE 0
    PC := PC_START
    I := 0
    delay_timer := 0
    sound_timer := 0
    screen := List.replicate SCREEN_SIZE 0 }

/-! ### Timer scaling (src/vm/timer.rs).  The `as u8` cast in
`get_scaled` is a truncating cast, hence `% 256`. -/

def Timer.get_scaled (t : Nat) : Nat := (t / TIMER_DURATION_NANO) % 256

def Timer.set_scaled (value : Nat) : Nat := value * TIMER_DURATION_NANO

/-! ### Checked list accesses.  A Rust slice/array access that is out of
bounds panics; the panic is modelled by `none`. -/

def setChk (l : List Nat) (i v : Nat) : Option (List Nat) :=
  if i < l.length then some (l.set i v) else none

def getChk (l : List Nat) (i : Nat) : Option Nat :=
  if i < l.length then some (l.getD i 0) else none

def sliceChk (l : List Nat) (a b : Nat) : Option (List Nat) :=
  if a ≤ b ∧ b ≤ l.length then some ((l.drop a).take (b - a)) else none

/-! ### The display (src/vm/display.rs, `VmDisplay`).

`draw_sprite` (lines 53-75) iterates the sprite rows and the 8 columns;
a set sprite bit whose linear `pixel_index` is inside the screen array is
XOR-ed onto the screen, and the collision state becomes `Changed` when the
screen pixel was 1 before the XOR.  `data[sprite_y]` never panics in the
program because every caller passes a slice of length `8 * height ≥ height`,
so it is modelled with `getD`. -/

def drawSpriteStep (x y r pixels : Nat) (acc : List Nat × Bool) (c : Nat) :
    List Nat × Bool :=
  if pixels &&& (0x80 >>> c) ≠ 0 then
    let pixel_index := x + c + (y + r) * SCREEN_SIZE_X
    if pixel_index < SCREEN_SIZE then
      (acc.1.set pixel_index ((acc.1.getD pixel_index 0) ^^^ 1),
       acc.2 || (acc.1.getD pixel_index 0 == 1))
    else acc
  else acc

def drawSpriteRow (x y r pixels : Nat) (acc : List Nat × Bool) :
    List Nat × Bool :=
  (List.range 8).foldl (drawSpriteStep x y r pixels) acc

/-- `VmDisplay::draw_sprite`; the `Bool` is the collision state
(`true` = `DisplayState::Changed`). -/
def draw_sprite (screen : List Nat) (x y : Nat) (height : Nat)
    (data : List Nat) : List Nat × Bool :=
  (List.range height).foldl
    (fun acc sprite_y => drawSpriteRow x y sprite_y (data.getD sprite_y 0) acc)
    (screen, false)

/-- `VmDisplay::clear` zeroes every screen byte. -/
def Display.clear (screen : List Nat) : List Nat := screen.map (fun _ => 0)

/-! ### u8 arithmetic (Rust core).  Register values are bytes (< 256);
the wrapping result and the carry/borrow bit are explicit. -/

def overflowing_add8 (a b : Nat) : Nat × Bool := ((a + b) % 256, 255 < a + b)

def overflowing_sub8 (a b : Nat) : Nat × Bool := ((a + 256 - b) % 256, a < b)

/-! ### The execution engine (src/vm/vm.rs, `Vm::execute` and the `op_*`
helpers, lines 402-625).

Register indices produced by `decode` are nibbles (< 16 = REGISTER_COUNT),
so register array indexing never panics in the program; it is modelled with
`getD` / `List.set`.  `u16` additions (`PC += 2`, `I += x+1`, casts) are
modelled with `% 65536`. -/

/-- Input collaborator capabilities (src/vm/input.rs, trait `Input`). -/
structure InputState where
  is_pressed : Nat → Bool
  get_pressed_key : Option Nat

deriving instance DecidableEq for Except

/-- The outcome of `Vm::execute`: the shared display screen, the audio
playing flag, the mutated frame and the `Result`. -/
structure ExecResult where
  screen : List Nat
  playing : Bool
  frame : VmFrame
  result : Except String Unit
deriving DecidableEq, Repr

def increment_pc (frame : VmFrame) : VmFrame :=
  { frame with PC := (frame.PC + PC_INCREMENT) % 65536 }

def set_vf_flag (frame : VmFrame) (value : Nat) : VmFrame :=
  { frame with registers := frame.registers.set 0xF value }

def op_call (frame : VmFrame) (address : Nat) : VmFrame :=
  { frame with stack := frame.stack ++ [frame.PC], PC := address }

def op_return (vm_frame : VmFrame) : Except String VmFrame :=
  match vm_frame.stack.getLast? with
  | some return_address =>
      Except.ok { vm_frame with stack := vm_frame.stack.dropLast
                                PC := return_address }
  | none =>
      Except.error "Unable to pop stack because stack is empty. Fatal Error."

def op_math (frame : VmFrame) (reg1 reg2 store_reg : Nat)
    (operation : Nat → Nat → Nat × Bool) (get_carry_value : Bool → Nat) :
    VmFrame :=
  let a := frame.registers.getD reg1 0
  let b := frame.registers.getD reg2 0
  let ro := operation a b
  let frame := { frame with registers := frame.registers.set store_reg ro.1 }
  set_vf_flag frame (get_carry_value ro.2)

def op_math_add (frame : VmFrame) (reg1 reg2 store_reg : Nat) : VmFrame :=
  op_math frame reg1 reg2 store_reg overflowing_add8
    (fun has_carry => match has_carry with
      | true => 1
      | false => 0)

def op_math_minus (frame : VmFrame) (reg1 reg2 store_reg : Nat) : VmFrame :=
  op_math frame reg1 reg2 store_reg overflowing_sub8
    (fun has_borrow => match has_borrow with
      | true => 0
      | false => 1)

def op_right_shift (frame : VmFrame) (reg store_reg : Nat) : VmFrame :=
  let frame := set_vf_flag frame ((frame.registers.getD reg 0) &&& 0x1)
  { frame with
    registers := frame.registers.set store_reg ((frame.registers.getD reg 0) >>> 1) }

def op_left_shift (frame : VmFrame) (reg store_reg : Nat) : VmFrame :=
  let frame := set_vf_flag frame ((frame.registers.getD reg 0) >>> 7)
  { frame with
    registers := frame.registers.set store_reg (((frame.registers.getD reg 0) <<< 1) % 256) }

def op_bcd (frame : VmFrame) (data : Nat) : Option VmFrame :=
  let hundreds := data / 100
  let tens := (data / 10) % 10
  let ones := (data % 100) % 10
  match setChk frame.memory (frame.I + 0) hundreds with
  | none => none
  | some m1 =>
    match setChk m1 (frame.I + 1) tens with
    | none => none
    | some m2 =>
      match setChk m2 (frame.I + 2) ones with
      | none => none
      | some m3 => some { frame with memory := m3 }

def op_mem_add_i (frame : VmFrame) (data : Nat) : VmFrame :=
  let result := (frame.I + data) % 65536
  let has_overflow := 65535 < frame.I + data
  set_vf_flag { frame with I := result } (if has_overflow then 1 else 0)

def op_dump (frame : VmFrame) (offset : Nat) : Option VmFrame :=
  match (List.range (offset + 1)).foldlM
      (fun m n => setChk m (frame.I + n) (frame.registers.getD n 0))
      frame.memory with
  | none => none
  | some m => some { frame with memory := m, I := (frame.I + offset + 1) % 65536 }

def op_load (frame : VmFrame) (offset : Nat) : Option VmFrame :=
  match (List.range (offset + 1)).foldlM
      (fun regs n => (getChk frame.memory (frame.I + n)).map (fun v => regs.set n v))
      frame.registers with
  | none => none
  | some r => some { frame with registers := r, I := (frame.I + offset + 1) % 65536 }

def op_rand (frame : VmFrame) (reg mask rnd : Nat) : VmFrame :=
  { frame with registers := frame.registers.set reg ((rnd % 256) &&& mask) }

def op_await_key (inp : InputState) (frame : VmFrame) (reg : Nat) : VmFrame :=
  match inp.get_pressed_key with
  | some key => increment_pc { frame with registers := frame.registers.set reg key }
  | none => frame

def op_key_conditional_jump (inp : InputState) (frame : VmFrame)
    (key : Nat) (jump_if_pressed : Bool) : VmFrame :=
  if inp.is_pressed key = jump_if_pressed then increment_pc frame else frame

def op_draw (screen : List Nat) (frame : VmFrame) (x y height : Nat) :
    Option (List Nat × VmFrame) :=
  match sliceChk frame.memory frame.I (frame.I + 8 * height) with
  | none => none
  | some data =>
    let r := draw_sprite screen x y height data
    some (r.1, set_vf_flag frame (if r.2 then 1 else 0))

def op_sound_set (frame : VmFrame) (value : Nat) : Bool × VmFrame :=
  (true, { frame with sound_timer := Timer.set_scaled value })

/-- `Vm::execute`.  Produces the new shared screen, audio flag, frame and
the `Result`; `none` is a panic (unchecked memory access inside an
`op_*`).  The default `increment_pc` applies unless the instruction is a
control-flow transfer (`inc_pc = false` in the source). -/
def execute (inp : InputState) (rnd : Nat) (screen : List Nat)
    (playing : Bool) (frame : VmFrame) (code : OpCode) : Option ExecResult :=
  let reg := fun x => frame.registers.getD x 0
  let step : Option (List Nat × Bool × VmFrame × Except String Unit × Bool) :=
    match code with
    | OpCode.Disp_Clear =>
        some (Display.clear screen, playing, frame, Except.ok (), true)
    | OpCode.Disp x y n =>
        (op_draw screen frame (reg x) (reg y) n).map
          (fun r => (r.1, playing, r.2, Except.ok (), true))
    | OpCode.Flow_Call nnn =>
        some (screen, playing, op_call frame nnn, Except.ok (), false)
    | OpCode.Flow_Return =>
        match op_return frame with
        | Except.ok f => some (screen, playing, f, Except.ok (), true)
        | Except.error e => some (screen, playing, frame, Except.error e, true)
    | OpCode.Flow_Jump nnn =>
        some (screen, playing, { frame with PC := nnn }, Except.ok (), false)
    | OpCode.Flow_Jump_Offset nnn =>
        some (screen, playing, { frame with PC := reg 0 + nnn }, Except.ok (), false)
    | OpCode.Cond_Eq_Const x nn =>
        some (screen, playing,
          if reg x = nn then increment_pc frame else frame, Except.ok (), true)
    | OpCode.Cond_Neq_Const x nn =>
        some (screen, playing,
          if reg x ≠ nn then increment_pc frame else frame, Except.ok (), true)
    | OpCode.Cond_Eq_Reg x y =>
        some (screen, playing,
          if reg x = reg y then increment_pc frame else frame, Except.ok (), true)
    | OpCode.Cond_Neq_Reg x y =>
        some (screen, playing,
          if reg x ≠ reg y then increment_pc frame else frame, Except.ok (), true)
    | OpCode.Const_Set_Reg x nn =>
        some (screen, playing,
          { frame with registers := frame.registers.set x nn }, Except.ok (), true)
    | OpCode.Const_Add_Reg x nn =>
        some (screen, playing,
          { frame with registers := frame.registers.set x ((reg x + nn) % 256) },
          Except.ok (), true)
    | OpCode.Assign x y =>
        some (screen, playing,
          { frame with registers := frame.registers.set x (reg y) }, Except.ok (), true)
    | OpCode.BitOp_Or x y =>
        some (screen, playing,
          { frame with registers := frame.registers.set x (reg x ||| reg y) },
          Except.ok (), true)
    | OpCode.BitOp_And x y =>
        some (screen, playing,
          { frame with registers := frame.registers.set x (reg x &&& reg y) },
          Except.ok (), true)
    | OpCode.BitOp_Xor x y =>
        some (screen, playing,
          { frame with registers := frame.registers.set x (reg x ^^^ reg y) },
          Except.ok (), true)
    | OpCode.BitOp_Shift_Right x _ =>
        some (screen, playing, op_right_shift frame x x, Except.ok (), true)
    | OpCode.BitOp_Shift_Left x _ =>
        some (screen, playing, op_left_shift frame x x, Except.ok (), true)
    | OpCode.Math_Add x y =>
        some (screen, playing, op_math_add frame x y x, Except.ok (), true)
    | OpCode.Math_Minus x y =>
        some (screen, playing, op_math_minus frame x y x, Except.ok (), true)
    | OpCode.Math_Minus_Reverse x y =>
        some (screen, playing, op_math_minus frame y x x, Except.ok (), true)
    | OpCode.KeyOp_Await x =>
        some (screen, playing, op_await_key inp frame x, Except.ok (), false)
    | OpCode.KeyOp_Skip_Pressed x =>
        some (screen, playing, op_key_conditional_jump inp frame (reg x) true,
          Except.ok (), true)
    | OpCode.KeyOp_Skip_Not_Pressed x =>
        some (screen, playing, op_key_conditional_jump inp frame (reg x) false,
          Except.ok (), true)
    | OpCode.Rand x nn =>
        some (screen, playing, op_rand frame x nn rnd, Except.ok (), true)
    | OpCode.BCD x =>
        (op_bcd frame (reg x)).map (fun f => (screen, playing, f, Except.ok (), true))
    | OpCode.Timer_Delay_Get x =>
        some (screen, playing,
          { frame with registers := frame.registers.set x (Timer.get_scaled frame.delay_timer) },
          Except.ok (), true)
    | OpCode.Timer_Delay_Set x =>
        some (screen, playing,
          { frame with delay_timer := Timer.set_scaled (reg x) }, Except.ok (), true)
    | OpCode.Sound_Set x =>
        let r := op_sound_set frame (reg x)
        some (screen, r.1, r.2, Except.ok (), true)
    | OpCode.MEM_Set_I nnn =>
        some (screen, playing, { frame with I := nnn }, Except.ok (), true)
    | OpCode.MEM_Add_I x =>
        some (screen, playing, op_mem_add_i frame (reg x), Except.ok (), true)
    | OpCode.MEM_Reg_Dump x =>
        (op_dump frame x).map (fun f => (screen, playing, f, Except.ok (), true))
    | OpCode.MEM_Reg_Load x =>
        (op_load frame x).map (fun f => (screen, playing, f, Except.ok (), true))
    | OpCode.MEM_Set_Sprite_I x =>
        some (screen, playing,
          { frame with I := (reg x * FONT_SYMBOL_SIZE) % 65536 }, Except.ok (), true)
    | _ =>
        -- Raw_Call and Unknown: a warning is logged, nothing else happens
        some (screen, playing, frame, Except.ok (), true)
  match step with
  | none => none
  | some (scr, pl, f, res, inc) =>
      some ⟨scr, pl, if inc then increment_pc f else f, res⟩

/-- `Vm::fetch` (src/vm/vm.rs lines 289-292): a big-endian 16-bit word
from the two memory bytes at PC. -/
def fetch (frame : VmFrame) : Option Nat :=
  match sliceChk frame.memory frame.PC (frame.PC + 2) with
  | none => none
  | some slice => some (slice.getD 0 0 * 256 + slice.getD 1 0)

/-! ### Debugger (src/vm/debugger.rs), machine state and scheduler
(src/vm/vm.rs, `Vm`, `Vm::new`, `Vm::tick`, `process_debugger`,
`update_stack`). -/

inductive DebuggerCommand where
  | Next
  | Previous
  | PrintRegisters
  | PrintStack
  | PrintTimers
deriving DecidableEq, Repr

/-- The `Debugger` struct: `enabled` is fixed at construction,
`enable_break` is the shared atomic flag, and the mpsc receiver is the
queue of not yet consumed commands. -/
structure DebuggerState where
  enabled : Bool
  enable_break : Bool
  queue : List DebuggerCommand
deriving DecidableEq, Repr

/-- The `Vm` struct together with the shared `Display` screen and the
shared `Audio` playing flag it mutates. -/
structure VmState where
  screen : List Nat
  playing : Bool
  debugger : DebuggerState
  tick_timer : Nat
  tick_duration : Nat
  frames : List VmFrame
  frame_pointer : Nat
deriving DecidableEq, Repr

/-- Writes `src` into `mem` starting at index `start`
(`copy_from_slice` of `Vm::new`, and the FONTS loop). -/
def copyInto (mem : List Nat) (start : Nat) (src : List Nat) : List Nat :=
  (List.range src.length).foldl (fun m n => m.set (start + n) (src.getD n 0)) mem

/-- `Vm::new` (src/vm/vm.rs lines 83-143).  `fonts` stands for the FONTS
table of the absent src/vm/constants.rs (the spec only fixes that the
glyphs occupy a known-size prefix of the reserved low 512 bytes).  The
non-zero `tick_duration` is computed in the source through `f64`
division and truncation; it is modelled by the exact rational floor —
the claims only use the `hz = 0` case, which is exact. -/
def Vm.new (hz : Nat) (debug_enabled : Bool) (fonts rom : List Nat) :
    Except String VmState :=
  if rom.length = 0 then
    Except.error "ROM is empty"
  else if rom.length > ROM_SIZE then
    Except.error ("ROM size too big " ++ toString rom.length ++
      " max is " ++ toString ROM_SIZE)
  else
    let memory := List.replicate MEMORY_SIZE 0
    let memory := copyInto memory VM_RESERVED_BEGIN rom
    let memory := copyInto memory 0 fonts
    let frame := { VmFrame.new with memory := memory }
    Except.ok
      { screen := List.replicate SCREEN_SIZE 0
        playing := false
        debugger := { enabled := debug_enabled, enable_break := false, queue := [] }
        tick_timer := 0
        tick_duration :=
          if hz = 0 then 0
          else ((1000000000 / VM_ORIGINAL_HZ) * VM_ORIGINAL_HZ) / hz
        frames := [frame]
        frame_pointer := 0 }

/-- One debugger command of the drain loop in `process_debugger`:
`acc` is (frame_pointer, result).  The `Print*` commands only print. -/
def processDebuggerCmd (len : Nat) (acc : Nat × Bool) (command : DebuggerCommand) :
    Nat × Bool :=
  match command with
  | DebuggerCommand.Next =>
      if acc.1 < len - 1 then (acc.1 + 1, acc.2) else (acc.1, true)
  | DebuggerCommand.Previous =>
      if acc.1 > 0 then (acc.1 - 1, acc.2) else acc
  | _ => acc

/-- `Vm::process_debugger` (lines 194-260).  When the break flag is off
the gate reports `true` (execute).  Otherwise all pending commands are
drained, and the display is forced to the screen of the frame at the
resulting cursor (`get_current_frame` never panics in the program since
`frame_pointer < frames.len`, an invariant proved below; modelled with
`getD`). -/
def process_debugger (st : VmState) : VmState × Bool :=
  if st.debugger.enable_break then
    let r := st.debugger.queue.foldl (processDebuggerCmd st.frames.length)
      (st.frame_pointer, false)
    ({ st with frame_pointer := r.1
               debugger := { st.debugger with queue := [] }
               screen := (st.frames.getD r.1 VmFrame.new).screen }, r.2)
  else (st, true)

/-- `Vm::update_stack` (lines 270-287). -/
def update_stack (st : VmState) (frame : VmFrame) : VmState :=
  if st.debugger.enabled then
    let frame := { frame with screen := st.screen }
    if st.frame_pointer + 1 = st.frames.length then
      { st with frames := st.frames ++ [frame]
                frame_pointer := st.frame_pointer + 1 }
    else
      { st with frames := (st.frames.set st.frame_pointer frame).set
                  (st.frame_pointer + 1) frame
                frame_pointer := st.frame_pointer + 1 }
  else
    { st with frames := st.frames.set st.frame_pointer frame }

/-- The timer-decrement step at the top of an executed cycle
(lines 165-178): `u128::saturating_sub` is Nat subtraction.  Returns the
frame and the new audio playing flag (cleared when the sound timer
reaches zero). -/
def tickTimers (frame : VmFrame) (timer_delta : Nat) (playing : Bool) :
    VmFrame × Bool :=
  let frame :=
    if frame.delay_timer > 0 then
      { frame with delay_timer := frame.delay_timer - timer_delta }
    else frame
  if frame.sound_timer > 0 then
    let s := frame.sound_timer - timer_delta
    ({ frame with sound_timer := s }, if s = 0 then false else playing)
  else (frame, playing)

/-- The `timer_delta` selection of `Vm::tick` (lines 160-163): the raw
elapsed delta in uncapped mode, the tick duration otherwise. -/
def tickDelta (st : VmState) (delta : Nat) : Nat :=
  match st.tick_duration with
  | 0 => delta
  | _ => st.tick_duration

/-- `Vm::tick` (lines 146-192).  Returns the new state, the cycle
`Result`, and whether a cycle executed; `none` is a panic inside the
cycle (fetch or an unchecked memory access of an op). -/
def tick (st : VmState) (delta : Nat) (inp : InputState) (rnd : Nat) :
    Option (VmState × Except String Unit × Bool) :=
  if st.tick_timer > st.tick_duration then
    let st0 := { st with tick_timer := 0 }
    let pd := if st0.debugger.enabled then process_debugger st0 else (st0, true)
    if pd.2 then
      match pd.1.frames.get? pd.1.frame_pointer with
      | none => none
      | some frame0 =>
        let tf := tickTimers frame0 (tickDelta pd.1 delta) pd.1.playing
        let st1 := { pd.1 with playing := tf.2 }
        match fetch tf.1 with
        | none => none
        | some raw_opcode =>
          match execute inp rnd st1.screen st1.playing tf.1 (decode raw_opcode) with
          | none => none
          | some er =>
            let st2 := { st1 with screen := er.screen, playing := er.playing }
            some (update_stack st2 er.frame, er.result, true)
    else some (pd.1, Except.ok (), false)
  else some ({ st with tick_timer := st.tick_timer + delta }, Except.ok (), false)

/-- One iteration of the Runner's thread loop (src/runner.rs lines
67-79): an `Err` cycle result is logged and discarded, the loop
continues with the new state. -/
def runnerStep (st : VmState) (delta : Nat) (inp : InputState) (rnd : Nat) :
    Option VmState :=
  (tick st delta inp rnd).map (fun r => r.1)

/-- The Runner's thread loop over a finite schedule of iterations. -/
def runnerRun (st : VmState) : List (Nat × InputState × Nat) → Option VmState
  | [] => some st
  | i :: rest =>
      match runnerStep st i.1 i.2.1 i.2.2 with
      | none => none
      | some st' => runnerRun st' rest

/-- One scheduler iteration of the machine thread, as a relation:
`tick` was called with some delta, input state and random byte, did not
panic, and `executed` records whether a cycle ran. -/
def TickStep (st st' : VmState) (executed : Bool) : Prop :=
  ∃ (delta : Nat) (inp : InputState) (rnd : Nat) (res : Except String Unit),
    tick st delta inp rnd = some (st', res, executed)

/-- Reachability along tick iterations, counting executed cycles. -/
inductive ReachesN : VmState → Nat → VmState → Prop where
  | refl (st : VmState) : ReachesN st 0 st
  | step_exec {st st' st'' : VmState} {n : Nat} :
      ReachesN st n st' → TickStep st' st'' true → ReachesN st (n + 1) st''
  | step_skip {st st' st'' : VmState} {n : Nat} :
      ReachesN st n st' → TickStep st' st'' false → ReachesN st n st''

/-! ## Theorems -/

/-- A closed input collaborator with no pressed keys, for concrete
instantiations. -/
def inp0 : InputState := { is_pressed := fun _ => false, get_pressed_key := none }

/-! Bit-extraction facts: the mask-and-shift extraction of `decode`
agrees with the div/mod reading of the documented nibble positions. -/

theorem and_div_two_pow (a b k : Nat) :
    (a &&& b) / 2 ^ k = (a / 2 ^ k) &&& (b / 2 ^ k) := by
  induction k with
  | zero => simp
  | succ k ih =>
    rw [pow_succ, ← Nat.div_div_eq_div_mul, ih, Nat.and_div_two,
      Nat.div_div_eq_div_mul, Nat.div_div_eq_div_mul, ← pow_succ]

theorem extract_op (c : Nat) : (c &&& 0xF000) >>> 12 = c / 4096 % 16 := by
  rw [Nat.shiftRight_eq_div_pow]
  calc (c &&& 0xF000) / 2 ^ 12 = (c / 2 ^ 12) &&& (0xF000 / 2 ^ 12) :=
        and_div_two_pow c 0xF000 12
    _ = (c / 4096) &&& (2 ^ 4 - 1) := by norm_num
    _ = c / 4096 % 2 ^ 4 := Nat.and_pow_two_sub_one_eq_mod _ 4
    _ = c / 4096 % 16 := by norm_num

theorem extract_x (c : Nat) : (c &&& 0xF00) >>> 8 = c / 256 % 16 := by
  rw [Nat.shiftRight_eq_div_pow]
  calc (c &&& 0xF00) / 2 ^ 8 = (c / 2 ^ 8) &&& (0xF00 / 2 ^ 8) :=
        and_div_two_pow c 0xF00 8
    _ = (c / 256) &&& (2 ^ 4 - 1) := by norm_num
    _ = c / 256 % 2 ^ 4 := Nat.and_pow_two_sub_one_eq_mod _ 4
    _ = c / 256 % 16 := by norm_num

theorem extract_y (c : Nat) : (c &&& 0xF0) >>> 4 = c / 16 % 16 := by
  rw [Nat.shiftRight_eq_div_pow]
  calc (c &&& 0xF0) / 2 ^ 4 = (c / 2 ^ 4) &&& (0xF0 / 2 ^ 4) :=
        and_div_two_pow c 0xF0 4
    _ = (c / 16) &&& (2 ^ 4 - 1) := by norm_num
    _ = c / 16 % 2 ^ 4 := Nat.and_pow_two_sub_one_eq_mod _ 4
    _ = c / 16 % 16 := by norm_num

theorem extract_n (c : Nat) : c &&& 0xF = c % 16 := by
  have h := Nat.and_pow_two_sub_one_eq_mod c 4
  norm_num at h
  exact h

theorem extract_nn (c : Nat) : c &&& 0xFF = c % 256 := by
  have h := Nat.and_pow_two_sub_one_eq_mod c 8
  norm_num at h
  exact h

theorem extract_nnn (c : Nat) : c &&& 0xFFF = c % 4096 := by
  have h := Nat.and_pow_two_sub_one_eq_mod c 12
  norm_num at h
  exact h

/-- C2: the decoder is a pure total deterministic function — every word
decodes to exactly one OpCode variant — and it agrees everywhere with
the spec-side decoder `decodeSpec` built from the documented nibble
layout (op = bits 12-15, x = bits 8-11, y = bits 4-7, n = bits 0-3,
nn = low byte, nnn = low 12 bits); in particular 0x3123 is the
equality-skip on register 1 against constant 0x23, and 0xD123 is the
draw at registers 1,2 with height 3. -/
theorem decode_total_nibble_layout :
    (∀ code : Nat, ∃! oc : OpCode, decode code = oc) ∧
    (∀ code : Nat, decode code = decodeSpec code) ∧
    decode 0x3123 = OpCode.Cond_Eq_Const 0x1 0x23 ∧
    decode 0xD123 = OpCode.Disp 0x1 0x2 0x3 := by
  refine ⟨fun code => ⟨decode code, rfl, fun y hy => hy.symm⟩,
    fun code => ?_, by decide, by decide⟩
  simp only [decode, decodeSpec,
    show (0x0F0 ||| 0x00F : Nat) = 0xFF from rfl,
    show (0xF00 ||| 0x0F0 ||| 0x00F : Nat) = 0xFFF from rfl,
    show (3 * 4 : Nat) = 12 from rfl,
    show (2 * 4 : Nat) = 8 from rfl,
    show (1 * 4 : Nat) = 4 from rfl,
    extract_op, extract_x, extract_y, extract_n, extract_nn, extract_nnn]

/-- C1: executing Math_Add stores the wrapping (mod 256) sum of Vx and Vy
in Vx and sets VF to 1 exactly when the true sum exceeds 255, else 0;
executing Math_Minus stores the wrapping difference Vx − Vy in Vx and
sets VF to 1 exactly when no borrow occurred (Vy ≤ Vx), 0 otherwise. -/
theorem math_add_minus_flag_correct
    (inp : InputState) (rnd : Nat) (screen : List Nat) (playing : Bool)
    (frame : VmFrame) (x y : Nat)
    (hx : x < REGISTER_COUNT) (hxF : x ≠ 0xF)
    (hlen : frame.registers.length = REGISTER_COUNT) :
    (∀ er ∈ execute inp rnd screen playing frame (OpCode.Math_Add x y),
      er.frame.registers.getD x 0 =
        (frame.registers.getD x 0 + frame.registers.getD y 0) % 256 ∧
      er.frame.registers.getD 0xF 0 =
        (if 255 < frame.registers.getD x 0 + frame.registers.getD y 0
         then 1 else 0)) ∧
    (∀ er ∈ execute inp rnd screen playing frame (OpCode.Math_Minus x y),
      er.frame.registers.getD x 0 =
        (frame.registers.getD x 0 + 256 - frame.registers.getD y 0) % 256 ∧
      er.frame.registers.getD 0xF 0 =
        (if frame.registers.getD y 0 ≤ frame.registers.getD x 0
         then 1 else 0)) := by
  have h15 : (0xF : Nat) < frame.registers.length := by
    rw [hlen]; norm_num [REGISTER_COUNT]
  have hxl : x < frame.registers.length := by rw [hlen]; exact hx
  constructor
  · intro er her
    simp only [execute, Option.mem_def, Option.some.injEq] at her
    subst her
    refine ⟨?_, ?_⟩
    · simp only [increment_pc, op_math_add, op_math, set_vf_flag, overflowing_add8,
        if_true]
      rw [List.getD_eq_getElem?_getD, List.getElem?_set_ne (Ne.symm hxF),
        List.getElem?_set_self', List.getElem?_eq_getElem hxl]
      simp [List.getD_eq_getElem?_getD]
    · simp only [increment_pc, op_math_add, op_math, set_vf_flag, overflowing_add8,
        if_true]
      rw [List.getD_eq_getElem?_getD, List.getElem?_set_self',
        List.getElem?_eq_getElem (by simpa using h15)]
      by_cases hc : 255 < frame.registers[x]?.getD 0 + frame.registers[y]?.getD 0
      · simp [List.getD_eq_getElem?_getD, hc]
      · simp [List.getD_eq_getElem?_getD, hc]
  · intro er her
    simp only [execute, Option.mem_def, Option.some.injEq] at her
    subst her
    refine ⟨?_, ?_⟩
    · simp only [increment_pc, op_math_minus, op_math, set_vf_flag, overflowing_sub8,
        if_true]
      rw [List.getD_eq_getElem?_getD, List.getElem?_set_ne (Ne.symm hxF),
        List.getElem?_set_self', List.getElem?_eq_getElem hxl]
      simp [List.getD_eq_getElem?_getD]
    · simp only [increment_pc, op_math_minus, op_math, set_vf_flag, overflowing_sub8,
        if_true]
      rw [List.getD_eq_getElem?_getD, List.getElem?_set_self',
        List.getElem?_eq_getElem (by simpa using h15)]
      by_cases hc : frame.registers[x]?.getD 0 < frame.registers[y]?.getD 0
      · simp [List.getD_eq_getElem?_getD, hc, Nat.not_le.mpr hc]
      · simp [List.getD_eq_getElem?_getD, hc, Nat.not_lt.mp hc]

/-- C1 witness: 255 + 8 yields 7 with flag 1, and 2 − 8 yields 250 with
flag 0, through `math_add_minus_flag_correct` at concrete machine
frames. -/
theorem math_add_minus_flag_correct_witness :
    (∀ er ∈ execute inp0 0 [] false
        { VmFrame.new with registers := 255 :: 8 :: List.replicate 14 0 }
        (OpCode.Math_Add 0 1),
      er.frame.registers.getD 0 0 = 7 ∧ er.frame.registers.getD 0xF 0 = 1) ∧
    (∀ er ∈ execute inp0 0 [] false
        { VmFrame.new with registers := 2 :: 8 :: List.replicate 14 0 }
        (OpCode.Math_Minus 0 1),
      er.frame.registers.getD 0 0 = 250 ∧ er.frame.registers.getD 0xF 0 = 0) := by
  constructor
  · intro er her
    have h := (math_add_minus_flag_correct inp0 0 [] false
      { VmFrame.new with registers := 255 :: 8 :: List.replicate 14 0 } 0 1
      (by norm_num [REGISTER_COUNT]) (by norm_num) rfl).1 er her
    simpa using h
  · intro er her
    have h := (math_add_minus_flag_correct inp0 0 [] false
      { VmFrame.new with registers := 2 :: 8 :: List.replicate 14 0 } 0 1
      (by norm_num [REGISTER_COUNT]) (by norm_num) rfl).2 er her
    simpa using h

/-- C3: Flow_Call pushes the current, pre-advance PC onto the call stack
as the return address and sets PC to nnn with no +2 advance; Flow_Return
on a frame with a non-empty stack pops the saved return address into PC
and the default +2 advance then applies, so execution resumes at
return_address + 2. -/
theorem call_return_correct
    (inp : InputState) (rnd : Nat) (screen : List Nat) (playing : Bool)
    (frame : VmFrame) (nnn ret : Nat) :
    (∀ er ∈ execute inp rnd screen playing frame (OpCode.Flow_Call nnn),
      er.frame.PC = nnn ∧
      er.frame.stack = frame.stack ++ [frame.PC] ∧
      er.result = Except.ok ()) ∧
    (frame.stack.getLast? = some ret → ret + PC_INCREMENT < 65536 →
      ∀ er ∈ execute inp rnd screen playing frame OpCode.Flow_Return,
        er.frame.PC = ret + PC_INCREMENT ∧
        er.frame.stack = frame.stack.dropLast ∧
        er.result = Except.ok ()) := by
  constructor
  · intro er her
    simp only [execute, Option.mem_def, Option.some.injEq] at her
    subst her
    exact ⟨rfl, rfl, rfl⟩
  · intro hret hlt er her
    simp only [execute, op_return, hret, Option.mem_def, Option.some.injEq] at her
    subst her
    refine ⟨?_, rfl, rfl⟩
    simp only [increment_pc]
    exact Nat.mod_eq_of_lt hlt

/-- C3 witness: a call from PC = 789 to address 123 yields PC = 123 with
one stack frame holding 789; a return on the resulting frame yields
PC = 791 and an empty stack. -/
theorem call_return_correct_witness :
    (∀ er ∈ execute inp0 0 [] false { VmFrame.new with PC := 789 }
        (OpCode.Flow_Call 123),
      er.frame.PC = 123 ∧ er.frame.stack = [789]) ∧
    (∀ er ∈ execute inp0 0 [] false
        { VmFrame.new with PC := 123, stack := [789] } OpCode.Flow_Return,
      er.frame.PC = 791 ∧ er.frame.stack = []) := by
  constructor
  · intro er her
    have h := (call_return_correct inp0 0 [] false
      { VmFrame.new with PC := 789 } 123 0).1 er her
    exact ⟨h.1, by simpa using h.2.1⟩
  · intro er her
    have h := (call_return_correct inp0 0 [] false
      { VmFrame.new with PC := 123, stack := [789] } 0 789).2
      rfl (by norm_num [PC_INCREMENT]) er her
    exact ⟨h.1, by simpa using h.2.1⟩

/-- C8: Flow_Return on a frame with an empty call stack yields a failure
result from the engine (no panic, not a silent success); the stack stays
empty and the default PC+2 advance is still applied; the Runner loop
continues with the post-cycle state regardless of the cycle result. -/
theorem return_empty_stack_fails
    (inp : InputState) (rnd : Nat) (screen : List Nat) (playing : Bool)
    (frame : VmFrame) (hstack : frame.stack = []) :
    (execute inp rnd screen playing frame OpCode.Flow_Return).isSome = true ∧
    (∀ er ∈ execute inp rnd screen playing frame OpCode.Flow_Return,
      er.result =
        Except.error "Unable to pop stack because stack is empty. Fatal Error." ∧
      er.frame.stack = [] ∧
      er.frame.PC = (frame.PC + PC_INCREMENT) % 65536) ∧
    (∀ (st : VmState) (it : Nat × InputState × Nat)
        (rest : List (Nat × InputState × Nat)) (st' : VmState),
      runnerStep st it.1 it.2.1 it.2.2 = some st' →
      runnerRun st (it :: rest) = runnerRun st' rest) := by
  refine ⟨?_, ?_, ?_⟩
  · simp only [execute, op_return, hstack]
    rfl
  · intro er her
    simp only [execute, op_return, hstack,
      show ([] : List Nat).getLast? = none from rfl,
      Option.mem_def, Option.some.injEq] at her
    subst her
    exact ⟨rfl, hstack, rfl⟩
  · intro st it rest st' h
    simp [runnerRun, h]

/-- C8 witness: a return with an empty stack at PC = 512 errors, keeps
the stack empty, and still advances PC to 514. -/
theorem return_empty_stack_fails_witness :
    (execute inp0 0 [] false VmFrame.new OpCode.Flow_Return).map
      (fun er => (er.result, er.frame.stack, er.frame.PC)) =
    some (Except.error "Unable to pop stack because stack is empty. Fatal Error.",
      [], 514) := by
  rcases hex : execute inp0 0 [] false VmFrame.new OpCode.Flow_Return with _ | er
  · simp [execute, op_return,
      show VmFrame.new.stack = ([] : List Nat) from rfl,
      show ([] : List Nat).getLast? = none from rfl] at hex
  · have h := (return_empty_stack_fails inp0 0 [] false VmFrame.new rfl).2.1 er
      ((Option.mem_def).mpr hex)
    have hm : Option.map
        (fun er : ExecResult => (er.result, er.frame.stack, er.frame.PC))
        (some er) = some (er.result, er.frame.stack, er.frame.PC) := rfl
    rw [hm, h.1, h.2.1, h.2.2]
    decide

/-- C10: memory indexing of the engine is partial — op_bcd writes the
three BCD digits at I, I+1, I+2 with no bounds check and is panic-free
exactly when I ≤ 4093 (MEMORY_SIZE − 3); for I > 4093 executing BCD
aborts (none) instead of returning an error result; fetch reads the two
bytes at PC and is panic-free exactly when PC ≤ 4094. -/
theorem bcd_fetch_partiality
    (inp : InputState) (rnd : Nat) (screen : List Nat) (playing : Bool)
    (frame : VmFrame) (x : Nat)
    (hmem : frame.memory.length = MEMORY_SIZE) :
    (∀ data : Nat, (op_bcd frame data).isSome = true ↔ frame.I ≤ 4093) ∧
    (∀ data : Nat, ∀ f ∈ op_bcd frame data,
      f.memory.getD frame.I 0 = data / 100 ∧
      f.memory.getD (frame.I + 1) 0 = (data / 10) % 10 ∧
      f.memory.getD (frame.I + 2) 0 = (data % 100) % 10) ∧
    (4093 < frame.I →
      execute inp rnd screen playing frame (OpCode.BCD x) = none) ∧
    ((fetch frame).isSome = true ↔ frame.PC ≤ 4094) := by
  have hbcd : ∀ data : Nat, (op_bcd frame data).isSome = true ↔ frame.I ≤ 4093 := by
    intro data
    by_cases h : frame.I ≤ 4093
    · have c1 : frame.I < frame.memory.length := by
        rw [hmem]; simp only [MEMORY_SIZE]; omega
      have c2 : frame.I + 1 < frame.memory.length := by
        rw [hmem]; simp only [MEMORY_SIZE]; omega
      have c3 : frame.I + 2 < frame.memory.length := by
        rw [hmem]; simp only [MEMORY_SIZE]; omega
      simp [op_bcd, setChk, List.length_set, c1, c2, c3, h]
    · have hcase : frame.I = 4094 ∨ frame.I = 4095 ∨ 4096 ≤ frame.I := by omega
      rcases hcase with h4 | h4 | h4
      · have c1 : frame.I < frame.memory.length := by
          rw [hmem]; simp only [MEMORY_SIZE]; omega
        have c2 : frame.I + 1 < frame.memory.length := by
          rw [hmem]; simp only [MEMORY_SIZE]; omega
        have c3 : ¬ frame.I + 2 < frame.memory.length := by
          rw [hmem]; simp only [MEMORY_SIZE]; omega
        simp [op_bcd, setChk, List.length_set, c1, c2, c3, h]
      · have c1 : frame.I < frame.memory.length := by
          rw [hmem]; simp only [MEMORY_SIZE]; omega
        have c2 : ¬ frame.I + 1 < frame.memory.length := by
          rw [hmem]; simp only [MEMORY_SIZE]; omega
        simp [op_bcd, setChk, List.length_set, c1, c2, h]
      · have c1 : ¬ frame.I < frame.memory.length := by
          rw [hmem]; simp only [MEMORY_SIZE]; omega
        simp [op_bcd, setChk, c1, h]
  refine ⟨hbcd, ?_, ?_, ?_⟩
  · intro data f hf
    rw [Option.mem_def] at hf
    have hsome : (op_bcd frame data).isSome = true := by rw [hf]; rfl
    have hI : frame.I ≤ 4093 := (hbcd data).mp hsome
    have c1 : frame.I < frame.memory.length := by
      rw [hmem]; simp only [MEMORY_SIZE]; omega
    have c2 : frame.I + 1 < frame.memory.length := by
      rw [hmem]; simp only [MEMORY_SIZE]; omega
    have c3 : frame.I + 2 < frame.memory.length := by
      rw [hmem]; simp only [MEMORY_SIZE]; omega
    simp only [op_bcd, setChk, List.length_set, Nat.add_zero, c1, c2, c3, if_true,
      Option.some.injEq] at hf
    subst hf
    have hlen2 : frame.I + 2 < ((frame.memory.set frame.I (data / 100)).set
        (frame.I + 1) ((data / 10) % 10)).length := by
      simp only [List.length_set]; exact c3
    have hlen1 : frame.I + 1 < (frame.memory.set frame.I (data / 100)).length := by
      simp only [List.length_set]; exact c2
    refine ⟨?_, ?_, ?_⟩
    · rw [List.getD_eq_getElem?_getD,
        List.getElem?_set_ne (by omega : frame.I + 2 ≠ frame.I),
        List.getElem?_set_ne (by omega : frame.I + 1 ≠ frame.I),
        List.getElem?_set_self', List.getElem?_eq_getElem c1]
      rfl
    · rw [List.getD_eq_getElem?_getD,
        List.getElem?_set_ne (by omega : frame.I + 2 ≠ frame.I + 1),
        List.getElem?_set_self', List.getElem?_eq_getElem hlen1]
      rfl
    · rw [List.getD_eq_getElem?_getD, List.getElem?_set_self',
        List.getElem?_eq_getElem hlen2]
      rfl
  · intro hI
    have h := hbcd (frame.registers.getD x 0)
    have hn : op_bcd frame (frame.registers.getD x 0) = none := by
      rcases ho : op_bcd frame (frame.registers.getD x 0) with _ | f
      · rfl
      · exfalso
        have := h.mp (by rw [ho]; rfl)
        omega
    simp only [execute, hn]
    rfl
  · simp only [fetch, sliceChk, hmem, MEMORY_SIZE]
    split_ifs with h1 <;> simp <;> omega

/-- C10 witness: BCD of 38 at I = 4093 succeeds and writes digits 0, 3, 8
at 4093..4095; at I = 4094 executing BCD panics (none); fetch at the
initial PC = 512 succeeds. -/
theorem bcd_fetch_partiality_witness :
    ((op_bcd { VmFrame.new with I := 4093 } 38).isSome = true ↔
      (4093 : Nat) ≤ 4093) ∧
    (∀ f ∈ op_bcd { VmFrame.new with I := 4093 } 38,
      f.memory.getD 4093 0 = 0 ∧
      f.memory.getD 4094 0 = 3 ∧
      f.memory.getD 4095 0 = 8) ∧
    execute inp0 0 [] false { VmFrame.new with I := 4094 } (OpCode.BCD 0) = none ∧
    ((fetch VmFrame.new).isSome = true ↔ (512 : Nat) ≤ 4094) := by
  have hm : ({ VmFrame.new with I := 4093 } : VmFrame).memory.length = MEMORY_SIZE := by
    simp [VmFrame.new]
  have h1 := bcd_fetch_partiality inp0 0 [] false { VmFrame.new with I := 4093 } 0 hm
  have hm2 : ({ VmFrame.new with I := 4094 } : VmFrame).memory.length = MEMORY_SIZE := by
    simp [VmFrame.new]
  have h2 := bcd_fetch_partiality inp0 0 [] false { VmFrame.new with I := 4094 } 0 hm2
  have hm3 : (VmFrame.new : VmFrame).memory.length = MEMORY_SIZE := by
    simp [VmFrame.new]
  have h3 := bcd_fetch_partiality inp0 0 [] false VmFrame.new 0 hm3
  refine ⟨h1.1 38, ?_, h2.2.2.1 (by norm_num),
    ⟨fun _ => by norm_num, fun _ => h3.2.2.2.mpr (by decide)⟩⟩
  intro f hf
  have h := h1.2.1 38 f hf
  refine ⟨by simpa using h.1, by simpa using h.2.1, by simpa using h.2.2⟩

/-! Pointwise description of `copyInto` (used by `Vm::new`). -/

theorem setRange_length (src : List Nat) (start : Nat) :
    ∀ (n : Nat) (mem : List Nat),
      ((List.range n).foldl (fun m k => m.set (start + k) (src.getD k 0)) mem).length
        = mem.length := by
  intro n
  induction n with
  | zero => intro mem; simp
  | succ n ih =>
    intro mem
    rw [List.range_succ, List.foldl_append]
    simp only [List.foldl_cons, List.foldl_nil, List.length_set]
    exact ih mem

theorem setRange_getD (src : List Nat) (start j : Nat) :
    ∀ (n : Nat) (mem : List Nat), j < mem.length →
      ((List.range n).foldl (fun m k => m.set (start + k) (src.getD k 0)) mem).getD j 0 =
        if start ≤ j ∧ j < start + n then src.getD (j - start) 0
        else mem.getD j 0 := by
  intro n
  induction n with
  | zero =>
    intro mem hj
    simp only [List.range_zero, List.foldl_nil]
    rw [if_neg (by omega)]
  | succ n ih =>
    intro mem hj
    rw [List.range_succ, List.foldl_append]
    simp only [List.foldl_cons, List.foldl_nil]
    have hlen : j <
        ((List.range n).foldl (fun m k => m.set (start + k) (src.getD k 0)) mem).length := by
      rw [setRange_length]; exact hj
    by_cases hje : j = start + n
    · subst hje
      rw [List.getD_eq_getElem?_getD, List.getElem?_set_self',
        List.getElem?_eq_getElem hlen, if_pos (by omega)]
      simp
    · rw [List.getD_eq_getElem?_getD,
        List.getElem?_set_ne (by omega : start + n ≠ j),
        ← List.getD_eq_getElem?_getD, ih mem hj]
      split_ifs <;> first | rfl | omega

theorem copyInto_length (mem src : List Nat) (start : Nat) :
    (copyInto mem start src).length = mem.length :=
  setRange_length src start src.length mem

theorem copyInto_getD (mem src : List Nat) (start j : Nat) (hj : j < mem.length) :
    (copyInto mem start src).getD j 0 =
      if start ≤ j ∧ j < start + src.length then src.getD (j - start) 0
      else mem.getD j 0 :=
  setRange_getD src start j src.length mem hj

/-- C5 counterexample: a ROM of 3233 bytes has a length inside
(0, 4096 − 512 − 96] — so the claim predicts successful construction —
yet `Vm::new` rejects it: the code's capacity is
ROM_SIZE = 4096 − 512 − (256 + 96) = 3232, which also subtracts the
256-byte display-refresh region. -/
theorem rom_capacity_counterexample :
    0 < (List.replicate 3233 0).length ∧
    (List.replicate 3233 0).length ≤ 4096 - 512 - 96 ∧
    Vm.new 60 false (List.replicate 80 0) (List.replicate 3233 0) =
      Except.error ("ROM size too big " ++ toString (3233 : Nat) ++
        " max is " ++ toString (3232 : Nat)) := by
  refine ⟨by norm_num, by norm_num, ?_⟩
  have h1 : ¬ (List.replicate 3233 (0 : Nat)).length = 0 := by norm_num
  have h2 : (List.replicate 3233 (0 : Nat)).length > ROM_SIZE := by
    norm_num [ROM_SIZE, MEMORY_SIZE, VM_RESERVED_BEGIN, VM_RESERVED_END,
      VM_INTERPRETER_SIZE, VM_DISPLAY_REFRESH_SIZE, VM_INTERNAL_SIZE]
  rw [Vm.new, if_neg h1, if_pos h2]
  norm_num [ROM_SIZE, MEMORY_SIZE, VM_RESERVED_BEGIN, VM_RESERVED_END,
    VM_INTERPRETER_SIZE, VM_DISPLAY_REFRESH_SIZE, VM_INTERNAL_SIZE]

set_option maxRecDepth 20000 in
/-- C5 amended: machine construction fails exactly when the ROM byte
sequence is empty (RomEmpty) or longer than the capacity
ROM_SIZE = 4096 − 512 − 256 − 96 = 3232 (interpreter, display-refresh
and internal reserved regions); for every ROM whose length is in
(0, ROM_SIZE], construction succeeds and copies the ROM verbatim into
memory starting at offset 512. -/
theorem vm_new_rom_validation (hz : Nat) (dbg : Bool) (fonts rom : List Nat)
    (hfonts : fonts.length ≤ VM_RESERVED_BEGIN) :
    (ROM_SIZE = 4096 - 512 - 256 - 96) ∧
    (rom.length = 0 → Vm.new hz dbg fonts rom = Except.error "ROM is empty") ∧
    (rom.length > ROM_SIZE →
      Vm.new hz dbg fonts rom =
        Except.error ("ROM size too big " ++ toString rom.length ++
          " max is " ++ toString ROM_SIZE)) ∧
    ((∃ st, Vm.new hz dbg fonts rom = Except.ok st) ↔
      0 < rom.length ∧ rom.length ≤ ROM_SIZE) ∧
    (∀ st, Vm.new hz dbg fonts rom = Except.ok st →
      ∀ i, i < rom.length →
        (st.frames.getD 0 VmFrame.new).memory.getD (512 + i) 0 = rom.getD i 0) := by
  have hROM : ROM_SIZE = 3232 := by
    norm_num [ROM_SIZE, MEMORY_SIZE, VM_RESERVED_BEGIN, VM_RESERVED_END,
      VM_INTERPRETER_SIZE, VM_DISPLAY_REFRESH_SIZE, VM_INTERNAL_SIZE]
  refine ⟨by omega, ?_, ?_, ?_, ?_⟩
  · intro h0
    rw [Vm.new, if_pos h0]
  · intro hbig
    have h0 : ¬ rom.length = 0 := by omega
    rw [Vm.new, if_neg h0, if_pos hbig]
  · constructor
    · rintro ⟨st, hst⟩
      by_cases h0 : rom.length = 0
      · rw [Vm.new, if_pos h0] at hst
        exact absurd hst (by simp)
      · by_cases hbig : rom.length > ROM_SIZE
        · rw [Vm.new, if_neg h0, if_pos hbig] at hst
          exact absurd hst (by simp)
        · omega
    · rintro ⟨h0, hle⟩
      rcases hE : Vm.new hz dbg fonts rom with e | st
      · rw [Vm.new, if_neg (by omega : ¬ rom.length = 0),
          if_neg (by omega : ¬ rom.length > ROM_SIZE)] at hE
        exact absurd hE (by simp)
      · exact ⟨st, rfl⟩
  · intro st hst i hi
    by_cases h0 : rom.length = 0
    · rw [Vm.new, if_pos h0] at hst
      exact absurd hst (by simp)
    by_cases hbig : rom.length > ROM_SIZE
    · rw [Vm.new, if_neg h0, if_pos hbig] at hst
      exact absurd hst (by simp)
    rw [Vm.new, if_neg h0, if_neg hbig] at hst
    simp only [Except.ok.injEq] at hst
    subst hst
    simp only [List.getD_cons_zero]
    have hlen1 : 512 + i < (copyInto (List.replicate MEMORY_SIZE 0)
        VM_RESERVED_BEGIN rom).length := by
      rw [copyInto_length]
      simp only [List.length_replicate, MEMORY_SIZE]
      omega
    rw [copyInto_getD _ _ _ _ hlen1,
      if_neg (by simp only [VM_RESERVED_BEGIN, VM_INTERPRETER_SIZE] at hfonts ⊢; omega)]
    have hlen2 : 512 + i < (List.replicate MEMORY_SIZE (0 : Nat)).length := by
      simp only [List.length_replicate, MEMORY_SIZE]
      omega
    rw [copyInto_getD _ _ _ _ hlen2,
      if_pos (by constructor <;>
        simp only [VM_RESERVED_BEGIN, VM_INTERPRETER_SIZE] <;> omega)]
    have hsub : 512 + i - VM_RESERVED_BEGIN = i := by
      simp only [VM_RESERVED_BEGIN, VM_INTERPRETER_SIZE]
      omega
    rw [hsub]

/-- C5 witness: a 3-byte ROM [1, 2, 3] is accepted and lands verbatim at
memory offset 512, through `vm_new_rom_validation`. -/
theorem vm_new_rom_validation_witness :
    ((∃ st, Vm.new 60 false (List.replicate 80 0) [1, 2, 3] = Except.ok st) ↔
      0 < ([1, 2, 3] : List Nat).length ∧ ([1, 2, 3] : List Nat).length ≤ ROM_SIZE) ∧
    (∀ st, Vm.new 60 false (List.replicate 80 0) [1, 2, 3] = Except.ok st →
      ∀ i, i < ([1, 2, 3] : List Nat).length →
        (st.frames.getD 0 VmFrame.new).memory.getD (512 + i) 0 =
          ([1, 2, 3] : List Nat).getD i 0) := by
  have h := vm_new_rom_validation 60 false (List.replicate 80 0) [1, 2, 3]
    (by norm_num [VM_RESERVED_BEGIN, VM_INTERPRETER_SIZE])
  exact ⟨h.2.2.2.1, h.2.2.2.2⟩

theorem update_stack_tick_timer (st : VmState) (f : VmFrame) :
    (update_stack st f).tick_timer = st.tick_timer := by
  simp only [update_stack]
  split_ifs <;> rfl

/-- C6: with a configured rate of zero (tick_duration = 0, uncapped
mode), every tick call with a positive accumulated delta executes a
cycle and resets the accumulator to zero (rather than decrementing it by
the tick duration); the timer delta used is the raw elapsed delta, and
the timer-decrement step subtracts it from the delay and sound timers
saturating at zero. -/
theorem uncapped_tick_semantics
    (st : VmState) (delta : Nat) (inp : InputState) (rnd : Nat)
    (hdur : st.tick_duration = 0) (hacc : 0 < st.tick_timer)
    (hdbg : st.debugger.enabled = false) :
    (∀ r ∈ tick st delta inp rnd, r.2.2 = true ∧ r.1.tick_timer = 0) ∧
    tickDelta st delta = delta ∧
    (∀ (f : VmFrame) (d : Nat) (p : Bool),
      (tickTimers f d p).1.delay_timer = f.delay_timer - d ∧
      (tickTimers f d p).1.sound_timer = f.sound_timer - d) := by
  refine ⟨?_, by simp [tickDelta, hdur], ?_⟩
  · intro r hr
    have hgt : st.tick_timer > st.tick_duration := by omega
    rw [Option.mem_def] at hr
    simp only [tick, if_pos hgt, hdbg, Bool.false_eq_true, if_false, if_true] at hr
    split at hr
    · simp at hr
    split at hr
    · simp at hr
    split at hr
    · simp at hr
    simp only [Option.some.injEq] at hr
    subst hr
    refine ⟨rfl, ?_⟩
    rw [update_stack_tick_timer]
  · intro f d p
    simp only [tickTimers]
    split_ifs <;> simp_all

/-- C6 witness: a concrete uncapped machine (tick_duration 0, accumulated
5 ns) through `uncapped_tick_semantics` at delta 7. -/
theorem uncapped_tick_semantics_witness :
    (∀ r ∈ tick
        { screen := [], playing := false,
          debugger := { enabled := false, enable_break := false, queue := [] },
          tick_timer := 5, tick_duration := 0,
          frames := [VmFrame.new], frame_pointer := 0 } 7 inp0 0,
      r.2.2 = true ∧ r.1.tick_timer = 0) ∧
    tickDelta
        { screen := [], playing := false,
          debugger := { enabled := false, enable_break := false, queue := [] },
          tick_timer := 5, tick_duration := 0,
          frames := [VmFrame.new], frame_pointer := 0 } 7 = 7 ∧
    (∀ (f : VmFrame) (d : Nat) (p : Bool),
      (tickTimers f d p).1.delay_timer = f.delay_timer - d ∧
      (tickTimers f d p).1.sound_timer = f.sound_timer - d) :=
  uncapped_tick_semantics _ 7 inp0 0 rfl (by norm_num) rfl

/-! Reduction of the checked dump/load loops to pure folds, and their
pointwise descriptions. -/

theorem dumpFold_eq (regs : List Nat) (I : Nat) :
    ∀ (n : Nat) (mem : List Nat), I + n ≤ mem.length →
      (List.range n).foldlM (fun m k => setChk m (I + k) (regs.getD k 0)) mem =
        some ((List.range n).foldl (fun m k => m.set (I + k) (regs.getD k 0)) mem) := by
  intro n
  induction n with
  | zero => intro mem h; rfl
  | succ n ih =>
    intro mem h
    rw [List.range_succ, List.foldlM_append, ih mem (by omega)]
    simp only [List.foldlM_cons, List.foldlM_nil, Option.bind_eq_bind,
      Option.some_bind, List.foldl_append, List.foldl_cons, List.foldl_nil]
    rw [setChk, if_pos (by rw [setRange_length]; omega)]
    rfl

theorem loadFold_eq (mem : List Nat) (I : Nat) :
    ∀ (n : Nat) (regs : List Nat), I + n ≤ mem.length →
      (List.range n).foldlM
          (fun r k => (getChk mem (I + k)).map (fun v => r.set k v)) regs =
        some ((List.range n).foldl (fun r k => r.set k (mem.getD (I + k) 0)) regs) := by
  intro n
  induction n with
  | zero => intro regs h; rfl
  | succ n ih =>
    intro regs h
    rw [List.range_succ, List.foldlM_append, ih regs (by omega)]
    simp only [List.foldlM_cons, List.foldlM_nil, Option.bind_eq_bind,
      Option.some_bind, List.foldl_append, List.foldl_cons, List.foldl_nil]
    rw [getChk, if_pos (by omega)]
    rfl

theorem loadRange_length (mem : List Nat) (I : Nat) :
    ∀ (n : Nat) (regs : List Nat),
      ((List.range n).foldl (fun r k => r.set k (mem.getD (I + k) 0)) regs).length
        = regs.length := by
  intro n
  induction n with
  | zero => intro regs; rfl
  | succ n ih =>
    intro regs
    rw [List.range_succ, List.foldl_append]
    simp only [List.foldl_cons, List.foldl_nil, List.length_set]
    exact ih regs

theorem loadRange_getD (mem : List Nat) (I k : Nat) :
    ∀ (n : Nat) (regs : List Nat), k < regs.length →
      ((List.range n).foldl (fun r j => r.set j (mem.getD (I + j) 0)) regs).getD k 0 =
        if k < n then mem.getD (I + k) 0 else regs.getD k 0 := by
  intro n
  induction n with
  | zero =>
    intro regs hk
    simp only [List.range_zero, List.foldl_nil]
    rw [if_neg (by omega)]
  | succ n ih =>
    intro regs hk
    rw [List.range_succ, List.foldl_append]
    simp only [List.foldl_cons, List.foldl_nil]
    have hlen : k <
        ((List.range n).foldl (fun r j => r.set j (mem.getD (I + j) 0)) regs).length := by
      rw [loadRange_length]; exact hk
    by_cases hke : k = n
    · subst hke
      rw [List.getD_eq_getElem?_getD, List.getElem?_set_self',
        List.getElem?_eq_getElem hlen, if_pos (by omega)]
      simp
    · rw [List.getD_eq_getElem?_getD,
        List.getElem?_set_ne (by omega : n ≠ k),
        ← List.getD_eq_getElem?_getD, ih regs hk]
      split_ifs <;> first | rfl | omega

/-- C7: MEM_Reg_Dump writes registers 0..=x to memory[I..I+x] and then
advances I by exactly x+1, leaving other memory and the registers
unchanged; MEM_Reg_Load reads memory[I..I+x] into registers 0..=x and
advances I by x+1; dumping 0..=x and then loading back from the same
region into freshly zeroed registers reproduces the original register
values 0..=x. -/
theorem reg_dump_load_roundtrip
    (frame : VmFrame) (x : Nat) (hx : x < REGISTER_COUNT)
    (hrlen : frame.registers.length = REGISTER_COUNT)
    (hmem : frame.I + x < frame.memory.length)
    (hI : frame.I + x + 1 < 65536) :
    (op_dump frame x).isSome = true ∧
    (∀ f1 ∈ op_dump frame x,
      f1.I = frame.I + x + 1 ∧
      f1.registers = frame.registers ∧
      (∀ n ≤ x, f1.memory.getD (frame.I + n) 0 = frame.registers.getD n 0) ∧
      (∀ j < frame.memory.length, j < frame.I ∨ frame.I + x < j →
        f1.memory.getD j 0 = frame.memory.getD j 0)) ∧
    (∀ f1 ∈ op_load frame x,
      f1.I = frame.I + x + 1 ∧
      f1.memory = frame.memory ∧
      (∀ n ≤ x, f1.registers.getD n 0 = frame.memory.getD (frame.I + n) 0)) ∧
    (∀ f1 ∈ op_dump frame x,
      ∀ f3 ∈ op_load
        { f1 with registers := List.replicate REGISTER_COUNT 0, I := frame.I } x,
        f3.I = frame.I + x + 1 ∧
        ∀ n ≤ x, f3.registers.getD n 0 = frame.registers.getD n 0) := by
  have hfold := dumpFold_eq frame.registers frame.I (x + 1) frame.memory (by omega)
  have hdump : op_dump frame x = some
      { frame with
        memory := (List.range (x + 1)).foldl
          (fun m k => m.set (frame.I + k) (frame.registers.getD k 0)) frame.memory
        I := (frame.I + x + 1) % 65536 } := by
    simp only [op_dump, hfold]
  have hdumpI : (frame.I + x + 1) % 65536 = frame.I + x + 1 := Nat.mod_eq_of_lt hI
  have hdumpChar : ∀ f1 ∈ op_dump frame x,
      f1.I = frame.I + x + 1 ∧
      f1.registers = frame.registers ∧
      (∀ n ≤ x, f1.memory.getD (frame.I + n) 0 = frame.registers.getD n 0) ∧
      (∀ j < frame.memory.length, j < frame.I ∨ frame.I + x < j →
        f1.memory.getD j 0 = frame.memory.getD j 0) := by
    intro f1 hf1
    rw [Option.mem_def, hdump, Option.some.injEq] at hf1
    subst hf1
    refine ⟨hdumpI, rfl, ?_, ?_⟩
    · intro n hn
      rw [setRange_getD frame.registers frame.I (frame.I + n) (x + 1)
          frame.memory (by omega), if_pos (by omega)]
      congr 1
      omega
    · intro j hj hout
      rw [setRange_getD frame.registers frame.I j (x + 1) frame.memory hj,
        if_neg (by omega)]
  have hlfold := loadFold_eq frame.memory frame.I (x + 1) frame.registers (by omega)
  have hload : op_load frame x = some
      { frame with
        registers := (List.range (x + 1)).foldl
          (fun r k => r.set k (frame.memory.getD (frame.I + k) 0)) frame.registers
        I := (frame.I + x + 1) % 65536 } := by
    simp only [op_load, hlfold]
  refine ⟨by rw [hdump]; rfl, hdumpChar, ?_, ?_⟩
  · intro f1 hf1
    rw [Option.mem_def, hload, Option.some.injEq] at hf1
    subst hf1
    refine ⟨hdumpI, rfl, ?_⟩
    intro n hn
    have hreg : n < frame.registers.length := by omega
    rw [loadRange_getD frame.memory frame.I n (x + 1) frame.registers hreg,
      if_pos (by omega)]
  · intro f1 hf1 f3 hf3
    rw [Option.mem_def, hdump, Option.some.injEq] at hf1
    subst hf1
    have hmem2 : frame.I + x < ((List.range (x + 1)).foldl
        (fun m k => m.set (frame.I + k) (frame.registers.getD k 0))
        frame.memory).length := by
      rw [setRange_length]; exact hmem
    have hlfold2 := loadFold_eq
      ((List.range (x + 1)).foldl
        (fun m k => m.set (frame.I + k) (frame.registers.getD k 0)) frame.memory)
      frame.I (x + 1) (List.replicate REGISTER_COUNT 0) (by omega)
    rw [Option.mem_def] at hf3
    simp only [op_load, hlfold2, Option.some.injEq] at hf3
    subst hf3
    refine ⟨hdumpI, ?_⟩
    intro n hn
    have hreg : n < (List.replicate REGISTER_COUNT (0 : Nat)).length := by
      simp only [List.length_replicate]
      omega
    rw [loadRange_getD _ frame.I n (x + 1) _ hreg, if_pos (by omega),
      setRange_getD frame.registers frame.I (frame.I + n) (x + 1)
        frame.memory (by omega), if_pos (by omega)]
    congr 1
    omega

/-- C7 witness: dumping registers 0..=2 of a machine frame with
registers 10, 20, 30 at I = 100 and loading them back into freshly
zeroed registers reproduces 10, 20, 30, with I advanced by 3 both
times. -/
theorem reg_dump_load_roundtrip_witness :
    (op_dump { VmFrame.new with
        registers := 10 :: 20 :: 30 :: List.replicate 13 0, I := 100 } 2).isSome
      = true ∧
    (∀ f1 ∈ op_dump { VmFrame.new with
        registers := 10 :: 20 :: 30 :: List.replicate 13 0, I := 100 } 2,
      ∀ f3 ∈ op_load
        { f1 with registers := List.replicate REGISTER_COUNT 0, I := 100 } 2,
        f3.I = 103 ∧
        ∀ n ≤ 2, f3.registers.getD n 0 =
          ({ VmFrame.new with
            registers := 10 :: 20 :: 30 :: List.replicate 13 0,
            I := 100 } : VmFrame).registers.getD n 0) := by
  have h := reg_dump_load_roundtrip
    { VmFrame.new with registers := 10 :: 20 :: 30 :: List.replicate 13 0, I := 100 }
    2 (by norm_num [REGISTER_COUNT]) (by norm_num [REGISTER_COUNT])
    (by simp only [VmFrame.new, List.length_replicate, MEMORY_SIZE]; norm_num)
    (by norm_num)
  refine ⟨h.1, ?_⟩
  intro f1 hf1 f3 hf3
  have h4 := h.2.2.2 f1 hf1 f3 hf3
  exact ⟨by simpa using h4.1, h4.2⟩

/-! Debugger / history helper lemmas. -/

theorem processDebuggerCmd_lt (len : Nat) (acc : Nat × Bool) (c : DebuggerCommand)
    (h : acc.1 < len) : (processDebuggerCmd len acc c).1 < len := by
  cases c <;> simp only [processDebuggerCmd]
  case Next =>
    split_ifs with hc
    · show acc.1 + 1 < len
      omega
    · show acc.1 < len
      omega
  case Previous =>
    split_ifs with hc
    · show acc.1 - 1 < len
      omega
    · exact h
  case PrintRegisters => exact h
  case PrintStack => exact h
  case PrintTimers => exact h

theorem processDebugger_fold_lt (len : Nat) (q : List DebuggerCommand) :
    ∀ acc : Nat × Bool, acc.1 < len →
      (q.foldl (processDebuggerCmd len) acc).1 < len := by
  induction q with
  | nil => intro acc h; exact h
  | cons c q ih =>
    intro acc h
    exact ih _ (processDebuggerCmd_lt len acc c h)

theorem process_debugger_frames (st : VmState) :
    (process_debugger st).1.frames = st.frames := by
  simp only [process_debugger]
  split_ifs <;> rfl

theorem process_debugger_fp_lt (st : VmState)
    (h : st.frame_pointer < st.frames.length) :
    (process_debugger st).1.frame_pointer < (process_debugger st).1.frames.length := by
  rw [process_debugger_frames]
  simp only [process_debugger]
  split_ifs with hb
  · exact processDebugger_fold_lt st.frames.length st.debugger.queue
      (st.frame_pointer, false) h
  · exact h

theorem update_stack_fp_lt (st : VmState) (f : VmFrame)
    (h : st.frame_pointer < st.frames.length) :
    (update_stack st f).frame_pointer < (update_stack st f).frames.length := by
  simp only [update_stack]
  split_ifs with he hp
  · simp only [List.length_append, List.length_cons, List.length_nil]
    omega
  · simp only [List.length_set]
    omega
  · simp only [List.length_set]
    exact h

/-- One tick preserves the frame-pointer bound, whatever the queue and
break flag are. -/
theorem tick_fp_lt (st : VmState) (delta : Nat) (inp : InputState) (rnd : Nat)
    (h : st.frame_pointer < st.frames.length) :
    ∀ r ∈ tick st delta inp rnd, r.1.frame_pointer < r.1.frames.length := by
  intro r hr
  rw [Option.mem_def, tick] at hr
  split_ifs at hr with hgt
  · by_cases hen : st.debugger.enabled = true
    · simp only [hen, if_true] at hr
      have hpdlt : (process_debugger { st with tick_timer := 0 }).1.frame_pointer <
          (process_debugger { st with tick_timer := 0 }).1.frames.length :=
        process_debugger_fp_lt _ h
      split_ifs at hr with hgate
      · split at hr
        · simp at hr
        split at hr
        · simp at hr
        split at hr
        · simp at hr
        simp only [Option.some.injEq] at hr
        subst hr
        exact update_stack_fp_lt _ _ hpdlt
      · simp only [Option.some.injEq] at hr
        subst hr
        exact hpdlt
    · simp only [Bool.not_eq_true] at hen
      simp only [hen, Bool.false_eq_true, if_false, if_true] at hr
      split at hr
      · simp at hr
      split at hr
      · simp at hr
      split at hr
      · simp at hr
      simp only [Option.some.injEq] at hr
      subst hr
      exact update_stack_fp_lt _ _ h
  · simp only [Option.some.injEq] at hr
    subst hr
    exact h

/-- One tick under "debugging enabled, no pending commands" preserves
the history shape and advances the cursor exactly on executed cycles. -/
theorem tick_growth (st : VmState) (delta : Nat) (inp : InputState) (rnd : Nat)
    (r : VmState × Except String Unit × Bool)
    (hen : st.debugger.enabled = true) (hq : st.debugger.queue = [])
    (hfp : st.frame_pointer + 1 = st.frames.length)
    (hr : tick st delta inp rnd = some r) :
    r.1.debugger.enabled = true ∧ r.1.debugger.queue = [] ∧
    r.1.frame_pointer + 1 = r.1.frames.length ∧
    r.1.frame_pointer = st.frame_pointer + (if r.2.2 = true then 1 else 0) := by
  rw [tick] at hr
  split_ifs at hr with hgt
  · simp only [hen, if_true] at hr
    by_cases hb : st.debugger.enable_break = true
    · have hpd2 : (process_debugger { st with tick_timer := 0 }).2 = false := by
        simp [process_debugger, hb, hq]
      simp only [hpd2, Bool.false_eq_true, if_false, Option.some.injEq] at hr
      subst hr
      have h1 : (process_debugger { st with tick_timer := 0 }).1.debugger.enabled
          = true := by
        simp [process_debugger, hb, hq, hen]
      have h2 : (process_debugger { st with tick_timer := 0 }).1.debugger.queue
          = [] := by
        simp [process_debugger, hb, hq]
      have h3 : (process_debugger { st with tick_timer := 0 }).1.frame_pointer
          = st.frame_pointer := by
        simp [process_debugger, hb, hq]
      have h4 := process_debugger_frames ({ st with tick_timer := 0 } : VmState)
      refine ⟨h1, h2, ?_, ?_⟩
      · rw [h3, h4]
        exact hfp
      · rw [h3]
        simp
    · simp only [Bool.not_eq_true] at hb
      have hpd : process_debugger { st with tick_timer := 0 } =
          (({ st with tick_timer := 0 } : VmState), true) := by
        simp only [process_debugger, hb, Bool.false_eq_true, if_false]
      rw [hpd] at hr
      simp only [if_true] at hr
      split at hr
      · simp at hr
      split at hr
      · simp at hr
      split at hr
      · simp at hr
      simp only [Option.some.injEq] at hr
      subst hr
      refine ⟨?_, ?_, ?_, ?_⟩
      · simp only [update_stack]
        split_ifs
        exact hen
      · simp only [update_stack]
        split_ifs
        exact hq
      · simp only [update_stack]
        split_ifs
        simp only [List.length_append, List.length_cons, List.length_nil]
        omega
      · simp only [update_stack]
        split_ifs
        simp
  · simp only [Option.some.injEq] at hr
    subst hr
    exact ⟨hen, hq, hfp, by simp⟩

/-- C9: with debugging enabled and no stepping (empty command queue),
after N executed cycles the frame pointer equals N and the history
length equals N+1; `Previous` at frame pointer 0 is a no-op that does
not execute; `Next` at the last frame signals live-resume instead of
advancing; and the frame pointer stays within [0, history length − 1]
across every tick. -/
theorem debugger_history_invariants :
    (∀ st0 : VmState, st0.debugger.enabled = true → st0.debugger.queue = [] →
      st0.frame_pointer = 0 → st0.frames.length = 1 →
      ∀ (n : Nat) (st : VmState), ReachesN st0 n st →
        st.frame_pointer = n ∧ st.frames.length = n + 1) ∧
    (∀ st : VmState, st.debugger.enable_break = true → st.frame_pointer = 0 →
      st.debugger.queue = [DebuggerCommand.Previous] →
      (process_debugger st).1.frame_pointer = 0 ∧
      (process_debugger st).2 = false) ∧
    (∀ st : VmState, st.debugger.enable_break = true →
      st.frame_pointer = st.frames.length - 1 →
      st.debugger.queue = [DebuggerCommand.Next] →
      (process_debugger st).1.frame_pointer = st.frame_pointer ∧
      (process_debugger st).2 = true) ∧
    (∀ st : VmState, st.frame_pointer < st.frames.length →
      ∀ (st' : VmState) (ex : Bool), TickStep st st' ex →
        st'.frame_pointer < st'.frames.length) := by
  refine ⟨?_, ?_, ?_, ?_⟩
  · intro st0 hen hq hfp0 hlen0 n st hreach
    have main : ∀ (n : Nat) (st : VmState), ReachesN st0 n st →
        st.debugger.enabled = true ∧ st.debugger.queue = [] ∧
        st.frame_pointer = n ∧ st.frames.length = n + 1 := by
      intro n st hreach
      induction hreach with
      | refl => exact ⟨hen, hq, hfp0, by omega⟩
      | step_exec hprev hstep ih =>
        obtain ⟨d, i, rn, res, htick⟩ := hstep
        have hg := tick_growth _ d i rn _ ih.1 ih.2.1 (by omega) htick
        refine ⟨hg.1, hg.2.1, ?_, ?_⟩ <;>
          simp only [hg.2.2.2, if_true] at hg ⊢ <;> omega
      | step_skip hprev hstep ih =>
        obtain ⟨d, i, rn, res, htick⟩ := hstep
        have hg := tick_growth _ d i rn _ ih.1 ih.2.1 (by omega) htick
        refine ⟨hg.1, hg.2.1, ?_, ?_⟩ <;>
          simp only [hg.2.2.2, Bool.false_eq_true, if_false] at hg ⊢ <;> omega
    exact ⟨(main n st hreach).2.2.1, (main n st hreach).2.2.2⟩
  · intro st hb hfp hq
    simp only [process_debugger, hb, if_true, hq, List.foldl_cons, List.foldl_nil,
      processDebuggerCmd, hfp]
    simp
  · intro st hb hfp hq
    simp only [process_debugger, hb, if_true, hq, List.foldl_cons, List.foldl_nil,
      processDebuggerCmd, hfp]
    constructor
    · split_ifs with h
      · simp at h
      · rfl
    · split_ifs with h
      · simp at h
      · rfl
  · intro st hlt st' ex hstep
    obtain ⟨d, i, rn, res, htick⟩ := hstep
    exact tick_fp_lt st d i rn hlt (st', res, ex) (by rw [Option.mem_def, htick])

/-- C9 witness: concrete instances — `Previous` at cursor 0 is a no-op;
`Next` at the last of two recorded frames reports live-resume; one
executed cycle from a fresh debug-enabled state reaches cursor 1 with
two history frames. -/
theorem debugger_history_invariants_witness :
    ((process_debugger
        { screen := [], playing := false,
          debugger := { enabled := true, enable_break := true,
                        queue := [DebuggerCommand.Previous] },
          tick_timer := 0, tick_duration := 0,
          frames := [VmFrame.new], frame_pointer := 0 }).1.frame_pointer = 0 ∧
      (process_debugger
        { screen := [], playing := false,
          debugger := { enabled := true, enable_break := true,
                        queue := [DebuggerCommand.Previous] },
          tick_timer := 0, tick_duration := 0,
          frames := [VmFrame.new], frame_pointer := 0 }).2 = false) ∧
    ((process_debugger
        { screen := [], playing := false,
          debugger := { enabled := true, enable_break := true,
                        queue := [DebuggerCommand.Next] },
          tick_timer := 0, tick_duration := 0,
          frames := [VmFrame.new, VmFrame.new], frame_pointer := 1 }).1.frame_pointer = 1 ∧
      (process_debugger
        { screen := [], playing := false,
          debugger := { enabled := true, enable_break := true,
                        queue := [DebuggerCommand.Next] },
          tick_timer := 0, tick_duration := 0,
          frames := [VmFrame.new, VmFrame.new], frame_pointer := 1 }).2 = true) := by
  constructor
  · exact debugger_history_invariants.2.1
      { screen := [], playing := false,
        debugger := { enabled := true, enable_break := true,
                      queue := [DebuggerCommand.Previous] },
        tick_timer := 0, tick_duration := 0,
        frames := [VmFrame.new], frame_pointer := 0 } rfl rfl rfl
  · have h := debugger_history_invariants.2.2.1
      { screen := [], playing := false,
        debugger := { enabled := true, enable_break := true,
                      queue := [DebuggerCommand.Next] },
        tick_timer := 0, tick_duration := 0,
        frames := [VmFrame.new, VmFrame.new], frame_pointer := 1 }
      rfl (by norm_num) rfl
    exact ⟨by rw [h.1], h.2⟩

theorem getD_set_self (l : List Nat) (i v : Nat) (h : i < l.length) :
    (l.set i v).getD i 0 = v := by
  rw [List.getD_eq_getElem?_getD, List.getElem?_set_self',
    List.getElem?_eq_getElem h]
  rfl

theorem getD_set_ne (l : List Nat) (i j v : Nat) (h : i ≠ j) :
    (l.set i v).getD j 0 = l.getD j 0 := by
  rw [List.getD_eq_getElem?_getD, List.getElem?_set_ne h,
    ← List.getD_eq_getElem?_getD]

theorem drawRow_spec (x y r pixels : Nat) (m : Nat) :
    ∀ acc : List Nat × Bool, acc.1.length = SCREEN_SIZE →
      ((List.range m).foldl (drawSpriteStep x y r pixels) acc).1.length = SCREEN_SIZE ∧
      (∀ p, p < SCREEN_SIZE →
        ((∃ c, c < m ∧ pixels &&& (0x80 >>> c) ≠ 0 ∧
            x + c + (y + r) * SCREEN_SIZE_X = p) →
          ((List.range m).foldl (drawSpriteStep x y r pixels) acc).1.getD p 0 =
            (acc.1.getD p 0) ^^^ 1) ∧
        ((¬ ∃ c, c < m ∧ pixels &&& (0x80 >>> c) ≠ 0 ∧
            x + c + (y + r) * SCREEN_SIZE_X = p) →
          ((List.range m).foldl (drawSpriteStep x y r pixels) acc).1.getD p 0 =
            acc.1.getD p 0)) ∧
      (((List.range m).foldl (drawSpriteStep x y r pixels) acc).2 = true ↔
        acc.2 = true ∨
        ∃ c, c < m ∧ pixels &&& (0x80 >>> c) ≠ 0 ∧
          x + c + (y + r) * SCREEN_SIZE_X < SCREEN_SIZE ∧
          acc.1.getD (x + c + (y + r) * SCREEN_SIZE_X) 0 = 1) := by
  induction m with
  | zero =>
    intro acc hL
    refine ⟨hL, ?_, ?_⟩
    · intro p hp
      constructor
      · rintro ⟨c, hc, _⟩
        omega
      · intro _
        rfl
    · constructor
      · intro h2
        exact Or.inl h2
      · rintro (h2 | ⟨c, hc, _⟩)
        · exact h2
        · omega
  | succ m ih =>
    intro acc hL
    obtain ⟨ihL, ihP, ihC⟩ := ih acc hL
    rw [List.range_succ, List.foldl_append, List.foldl_cons, List.foldl_nil]
    set S := (List.range m).foldl (drawSpriteStep x y r pixels) acc with hS
    by_cases hbit : pixels &&& (0x80 >>> m) ≠ 0
    · by_cases hin : x + m + (y + r) * SCREEN_SIZE_X < SCREEN_SIZE
      · -- bit set, in bounds: the step XORs pixel tgt
        have hstep : drawSpriteStep x y r pixels S m =
            (S.1.set (x + m + (y + r) * SCREEN_SIZE_X)
              ((S.1.getD (x + m + (y + r) * SCREEN_SIZE_X) 0) ^^^ 1),
             S.2 || (S.1.getD (x + m + (y + r) * SCREEN_SIZE_X) 0 == 1)) := by
          simp only [drawSpriteStep, if_pos hbit, if_pos hin]
        rw [hstep]
        -- the step target is untouched by columns < m
        have hmiss : ¬ ∃ c, c < m ∧ pixels &&& (0x80 >>> c) ≠ 0 ∧
            x + c + (y + r) * SCREEN_SIZE_X = x + m + (y + r) * SCREEN_SIZE_X := by
          rintro ⟨c, hc, _, he⟩
          omega
        have hStgt : S.1.getD (x + m + (y + r) * SCREEN_SIZE_X) 0 =
            acc.1.getD (x + m + (y + r) * SCREEN_SIZE_X) 0 :=
          (ihP _ hin).2 hmiss
        refine ⟨by simp [ihL], ?_, ?_⟩
        · intro p hp
          by_cases hpe : p = x + m + (y + r) * SCREEN_SIZE_X
          · subst hpe
            constructor
            · intro _
              rw [getD_set_self _ _ _ (by rw [ihL]; exact hin), hStgt]
            · intro hno
              exact absurd ⟨m, by omega, hbit, rfl⟩ hno
          · rw [getD_set_ne _ _ _ _ (fun he => hpe he.symm)]
            constructor
            · rintro ⟨c, hc, hcbit, hce⟩
              have hcm : c < m := by
                rcases Nat.lt_succ_iff_lt_or_eq.mp hc with h | h
                · exact h
                · exact absurd (h ▸ hce).symm hpe
              exact (ihP p hp).1 ⟨c, hcm, hcbit, hce⟩
            · intro hno
              refine (ihP p hp).2 ?_
              rintro ⟨c, hc, hcbit, hce⟩
              exact hno ⟨c, by omega, hcbit, hce⟩
        · simp only [Bool.or_eq_true, beq_iff_eq, ihC]
          constructor
          · rintro ((h2 | ⟨c, hc, hcbit, hlt, hval⟩) | htg)
            · exact Or.inl h2
            · exact Or.inr ⟨c, by omega, hcbit, hlt, hval⟩
            · exact Or.inr ⟨m, by omega, hbit, hin, by rw [← hStgt]; exact htg⟩
          · rintro (h2 | ⟨c, hc, hcbit, hlt, hval⟩)
            · exact Or.inl (Or.inl h2)
            · rcases Nat.lt_succ_iff_lt_or_eq.mp hc with h | h
              · exact Or.inl (Or.inr ⟨c, h, hcbit, hlt, hval⟩)
              · subst h
                exact Or.inr (by rw [hStgt]; exact hval)
      · -- bit set, out of linear bounds: dropped
        have hstep : drawSpriteStep x y r pixels S m = S := by
          simp only [drawSpriteStep, if_pos hbit, if_neg hin]
        rw [hstep]
        refine ⟨ihL, ?_, ?_⟩
        · intro p hp
          constructor
          · rintro ⟨c, hc, hcbit, hce⟩
            have hcm : c < m := by
              rcases Nat.lt_succ_iff_lt_or_eq.mp hc with h | h
              · exact h
              · subst h
                omega
            exact (ihP p hp).1 ⟨c, hcm, hcbit, hce⟩
          · intro hno
            refine (ihP p hp).2 ?_
            rintro ⟨c, hc, hcbit, hce⟩
            exact hno ⟨c, by omega, hcbit, hce⟩
        · rw [ihC]
          constructor
          · rintro (h2 | ⟨c, hc, hcbit, hlt, hval⟩)
            · exact Or.inl h2
            · exact Or.inr ⟨c, by omega, hcbit, hlt, hval⟩
          · rintro (h2 | ⟨c, hc, hcbit, hlt, hval⟩)
            · exact Or.inl h2
            · rcases Nat.lt_succ_iff_lt_or_eq.mp hc with h | h
              · exact Or.inr ⟨c, h, hcbit, hlt, hval⟩
              · subst h
                omega
    · -- bit clear: no-op column
      have hstep : drawSpriteStep x y r pixels S m = S := by
        simp only [drawSpriteStep, if_neg hbit]
      rw [hstep]
      refine ⟨ihL, ?_, ?_⟩
      · intro p hp
        constructor
        · rintro ⟨c, hc, hcbit, hce⟩
          have hcm : c < m := by
            rcases Nat.lt_succ_iff_lt_or_eq.mp hc with h | h
            · exact h
            · subst h
              exact absurd hcbit hbit
          exact (ihP p hp).1 ⟨c, hcm, hcbit, hce⟩
        · intro hno
          refine (ihP p hp).2 ?_
          rintro ⟨c, hc, hcbit, hce⟩
          exact hno ⟨c, by omega, hcbit, hce⟩
      · rw [ihC]
        constructor
        · rintro (h2 | ⟨c, hc, hcbit, hlt, hval⟩)
          · exact Or.inl h2
          · exact Or.inr ⟨c, by omega, hcbit, hlt, hval⟩
        · rintro (h2 | ⟨c, hc, hcbit, hlt, hval⟩)
          · exact Or.inl h2
          · rcases Nat.lt_succ_iff_lt_or_eq.mp hc with h | h
            · exact Or.inr ⟨c, h, hcbit, hlt, hval⟩
            · subst h
              exact absurd hcbit hbit
theorem drawSprite_fold_spec (x y : Nat) (data : List Nat) (h : Nat) :
    ∀ acc : List Nat × Bool, acc.1.length = SCREEN_SIZE →
      ((List.range h).foldl
        (fun a sprite_y => drawSpriteRow x y sprite_y (data.getD sprite_y 0) a)
        acc).1.length = SCREEN_SIZE ∧
      (∀ p, p < SCREEN_SIZE →
        ((∃ r, r < h ∧ ∃ c, c < 8 ∧ (data.getD r 0) &&& (0x80 >>> c) ≠ 0 ∧
            x + c + (y + r) * SCREEN_SIZE_X = p) →
          ((List.range h).foldl
            (fun a sprite_y => drawSpriteRow x y sprite_y (data.getD sprite_y 0) a)
            acc).1.getD p 0 = (acc.1.getD p 0) ^^^ 1) ∧
        ((¬ ∃ r, r < h ∧ ∃ c, c < 8 ∧ (data.getD r 0) &&& (0x80 >>> c) ≠ 0 ∧
            x + c + (y + r) * SCREEN_SIZE_X = p) →
          ((List.range h).foldl
            (fun a sprite_y => drawSpriteRow x y sprite_y (data.getD sprite_y 0) a)
            acc).1.getD p 0 = acc.1.getD p 0)) ∧
      (((List.range h).foldl
        (fun a sprite_y => drawSpriteRow x y sprite_y (data.getD sprite_y 0) a)
        acc).2 = true ↔
        acc.2 = true ∨
        ∃ r, r < h ∧ ∃ c, c < 8 ∧ (data.getD r 0) &&& (0x80 >>> c) ≠ 0 ∧
          x + c + (y + r) * SCREEN_SIZE_X < SCREEN_SIZE ∧
          acc.1.getD (x + c + (y + r) * SCREEN_SIZE_X) 0 = 1) := by
  induction h with
  | zero =>
    intro acc hL
    refine ⟨hL, ?_, ?_⟩
    · intro p hp
      refine ⟨?_, fun _ => rfl⟩
      rintro ⟨r, hr, _⟩
      omega
    · constructor
      · exact fun h2 => Or.inl h2
      · rintro (h2 | ⟨r, hr, _⟩)
        · exact h2
        · omega
  | succ h ih =>
    intro acc hL
    obtain ⟨ihL, ihP, ihC⟩ := ih acc hL
    rw [List.range_succ, List.foldl_append, List.foldl_cons, List.foldl_nil]
    set S := (List.range h).foldl
      (fun a sprite_y => drawSpriteRow x y sprite_y (data.getD sprite_y 0) a) acc
      with hSdef
    obtain ⟨rowL, rowP, rowC⟩ :=
      drawRow_spec x y h (data.getD h 0) 8 S ihL
    simp only [drawSpriteRow] at rowL rowP rowC ⊢
    -- cross-row injectivity: a pixel of row h is touched by no earlier row
    have hinj : ∀ c, c < 8 → ∀ r, r < h → ∀ c2, c2 < 8 →
        x + c2 + (y + r) * SCREEN_SIZE_X ≠ x + c + (y + h) * SCREEN_SIZE_X := by
      intro c hc r hr c2 hc2
      simp only [SCREEN_SIZE_X]
      omega
    refine ⟨rowL, ?_, ?_⟩
    · intro p hp
      constructor
      · rintro ⟨r, hr, c, hc, hbit, hte⟩
        by_cases hrow : ∃ c, c < 8 ∧ (data.getD h 0) &&& (0x80 >>> c) ≠ 0 ∧
            x + c + (y + h) * SCREEN_SIZE_X = p
        · -- row h hits p; earlier rows do not
          obtain ⟨c0, hc0, hbit0, hte0⟩ := hrow
          have hSp : S.1.getD p 0 = acc.1.getD p 0 := by
            refine (ihP p hp).2 ?_
            rintro ⟨r2, hr2, c2, hc2, hbit2, hte2⟩
            exact hinj c0 hc0 r2 hr2 c2 hc2 (hte2.trans hte0.symm)
          rw [(rowP p hp).1 ⟨c0, hc0, hbit0, hte0⟩, hSp]
        · -- p is hit only by an earlier row
          have hrlt : r < h := by
            rcases Nat.lt_succ_iff_lt_or_eq.mp hr with h2 | h2
            · exact h2
            · subst h2
              exact absurd ⟨c, hc, hbit, hte⟩ hrow
          rw [(rowP p hp).2 hrow]
          exact (ihP p hp).1 ⟨r, hrlt, c, hc, hbit, hte⟩
      · intro hno
        have hrow : ¬ ∃ c, c < 8 ∧ (data.getD h 0) &&& (0x80 >>> c) ≠ 0 ∧
            x + c + (y + h) * SCREEN_SIZE_X = p := by
          rintro ⟨c, hc, hbit, hte⟩
          exact hno ⟨h, by omega, c, hc, hbit, hte⟩
        rw [(rowP p hp).2 hrow]
        refine (ihP p hp).2 ?_
        rintro ⟨r, hr, c, hc, hbit, hte⟩
        exact hno ⟨r, by omega, c, hc, hbit, hte⟩
    · rw [rowC, ihC]
      constructor
      · rintro ((h2 | ⟨r, hr, c, hc, hbit, hlt, hval⟩) | ⟨c, hc, hbit, hlt, hval⟩)
        · exact Or.inl h2
        · exact Or.inr ⟨r, by omega, c, hc, hbit, hlt, hval⟩
        · refine Or.inr ⟨h, by omega, c, hc, hbit, hlt, ?_⟩
          rw [← hval]
          symm
          refine (ihP _ hlt).2 ?_
          rintro ⟨r2, hr2, c2, hc2, hbit2, hte2⟩
          exact hinj c hc r2 hr2 c2 hc2 hte2
      · rintro (h2 | ⟨r, hr, c, hc, hbit, hlt, hval⟩)
        · exact Or.inl (Or.inl h2)
        · rcases Nat.lt_succ_iff_lt_or_eq.mp hr with h2 | h2
          · exact Or.inl (Or.inr ⟨r, h2, c, hc, hbit, hlt, hval⟩)
          · subst h2
            refine Or.inr ⟨c, hc, hbit, hlt, ?_⟩
            rw [← hval]
            refine (ihP _ hlt).2 ?_
            rintro ⟨r2, hr2, c2, hc2, hbit2, hte2⟩
            exact hinj c hc r2 hr2 c2 hc2 hte2

theorem getD_replicate_zero (n p : Nat) :
    (List.replicate n (0 : Nat)).getD p 0 = 0 := by
  rw [List.getD_eq_getElem?_getD, List.getElem?_replicate]
  split_ifs <;> rfl

/-- C4 amended: sprite draw XORs each set sprite bit onto the
framebuffer at the linear pixel index x + c + (y + r) * SCREEN_SIZE_X;
a bit whose linear index is outside the screen array is silently
dropped, but a pixel that overflows the right edge with an in-range
linear index wraps into the following row rather than being dropped;
the collision state is `Changed` exactly when some drawn in-bounds pixel
was already set before the XOR, and op_draw stores 1 into VF exactly in
that case, else 0. -/
theorem draw_sprite_xor_collision
    (screen : List Nat) (x y height : Nat) (data : List Nat)
    (hlen : screen.length = SCREEN_SIZE) :
    ((draw_sprite screen x y height data).1.length = SCREEN_SIZE) ∧
    (∀ p, p < SCREEN_SIZE →
      ((∃ r, r < height ∧ ∃ c, c < 8 ∧ (data.getD r 0) &&& (0x80 >>> c) ≠ 0 ∧
          x + c + (y + r) * SCREEN_SIZE_X = p) →
        (draw_sprite screen x y height data).1.getD p 0 = (screen.getD p 0) ^^^ 1) ∧
      ((¬ ∃ r, r < height ∧ ∃ c, c < 8 ∧ (data.getD r 0) &&& (0x80 >>> c) ≠ 0 ∧
          x + c + (y + r) * SCREEN_SIZE_X = p) →
        (draw_sprite screen x y height data).1.getD p 0 = screen.getD p 0)) ∧
    ((draw_sprite screen x y height data).2 = true ↔
      ∃ r, r < height ∧ ∃ c, c < 8 ∧ (data.getD r 0) &&& (0x80 >>> c) ≠ 0 ∧
        x + c + (y + r) * SCREEN_SIZE_X < SCREEN_SIZE ∧
        screen.getD (x + c + (y + r) * SCREEN_SIZE_X) 0 = 1) ∧
    (∀ frame : VmFrame, frame.registers.length = REGISTER_COUNT →
      ∀ res ∈ op_draw screen frame x y height,
        ∃ data0 : List Nat,
          sliceChk frame.memory frame.I (frame.I + 8 * height) = some data0 ∧
          res.1 = (draw_sprite screen x y height data0).1 ∧
          res.2.registers.getD 0xF 0 =
            (if (draw_sprite screen x y height data0).2 = true then 1 else 0)) := by
  obtain ⟨fL, fP, fC⟩ := drawSprite_fold_spec x y data height (screen, false) hlen
  refine ⟨?_, ?_, ?_, ?_⟩
  · simpa only [draw_sprite] using fL
  · intro p hp
    exact ⟨fun hh => by simpa only [draw_sprite] using (fP p hp).1 hh,
           fun hh => by simpa only [draw_sprite] using (fP p hp).2 hh⟩
  · simp only [draw_sprite]
    rw [fC]
    simp
  · intro frame hr res hres
    rw [Option.mem_def, op_draw] at hres
    rcases hslice : sliceChk frame.memory frame.I (frame.I + 8 * height)
        with _ | data0 <;> rw [hslice] at hres
    · exact absurd hres (by simp)
    simp only [Option.some.injEq] at hres
    subst hres
    refine ⟨data0, rfl, rfl, ?_⟩
    simp only [set_vf_flag]
    rw [getD_set_self _ _ _ (by rw [hr]; norm_num [REGISTER_COUNT])]

/-- C4 counterexample: the screen is 64 pixels wide, so the sprite pixel
at x-coordinate 63 + 1 = 64 falls outside the screen; the claim says it
is silently dropped with no wraparound and that the framebuffer at other
positions is unchanged — but drawing the two-pixel row 0xC0 at (63, 0)
on an all-zero screen sets the pixel at linear index 64, which is the
screen position (0, 1) of the next row. -/
theorem draw_oob_wrap_counterexample :
    SCREEN_SIZE_X = 64 ∧
    (draw_sprite (List.replicate SCREEN_SIZE 0) 63 0 1
      [0xC0]).1.getD 64 0 = 1 ∧
    (List.replicate SCREEN_SIZE 0).getD 64 0 = 0 := by
  obtain ⟨fL, fP, fC⟩ := drawSprite_fold_spec 63 0 [0xC0] 1
    (List.replicate SCREEN_SIZE 0, false) (by simp)
  refine ⟨rfl, ?_, getD_replicate_zero _ _⟩
  have hhit : ∃ r, r < 1 ∧ ∃ c, c < 8 ∧
      (([0xC0] : List Nat).getD r 0) &&& (0x80 >>> c) ≠ 0 ∧
      63 + c + (0 + r) * SCREEN_SIZE_X = 64 := by
    refine ⟨0, by norm_num, 1, by norm_num, by decide, by norm_num⟩
  have h64 : (64 : Nat) < SCREEN_SIZE := by
    norm_num [SCREEN_SIZE, SCREEN_SIZE_X, SCREEN_SIZE_Y]
  have := (fP 64 h64).1 hhit
  simp only [draw_sprite]
  rw [this, getD_replicate_zero]
  rfl

/-- C4 witness: drawing the single-pixel sprite 0x80 at (1, 1) on an
all-zero screen sets exactly the pixel at linear index 1 + 1 * 64 = 65,
leaves pixel 0 unchanged, and reports no collision, through
`draw_sprite_xor_collision`. -/
theorem draw_sprite_xor_collision_witness :
    (draw_sprite (List.replicate SCREEN_SIZE 0) 1 1 1 [0x80]).1.getD 65 0 = 1 ∧
    (draw_sprite (List.replicate SCREEN_SIZE 0) 1 1 1 [0x80]).1.getD 0 0 = 0 ∧
    (draw_sprite (List.replicate SCREEN_SIZE 0) 1 1 1 [0x80]).2 = false := by
  have h := draw_sprite_xor_collision (List.replicate SCREEN_SIZE 0) 1 1 1 [0x80]
    (by simp)
  have h65 : (65 : Nat) < SCREEN_SIZE := by
    norm_num [SCREEN_SIZE, SCREEN_SIZE_X, SCREEN_SIZE_Y]
  have h0 : (0 : Nat) < SCREEN_SIZE := by
    norm_num [SCREEN_SIZE, SCREEN_SIZE_X, SCREEN_SIZE_Y]
  refine ⟨?_, ?_, ?_⟩
  · have := (h.2.1 65 h65).1
      ⟨0, by norm_num, 0, by norm_num, by decide, by norm_num [SCREEN_SIZE_X]⟩
    rw [this, getD_replicate_zero]
    rfl
  · have := (h.2.1 0 h0).2 ?_
    · rw [this, getD_replicate_zero]
    · rintro ⟨r, hr, c, hc, hbit, hte⟩
      have hr0 : r = 0 := by omega
      subst hr0
      simp only [SCREEN_SIZE_X] at hte
      omega
  · rw [← Bool.not_eq_true, h.2.2.1]
    rintro ⟨r, hr, c, hc, hbit, hlt, hval⟩
    rw [getD_replicate_zero] at hval
    exact absurd hval (by norm_num)

end Chip8
